import Mathlib

/-!
Verification of the futbol24-python client library.

This file gives a shallow embedding of the library's code:
  * `src/futbol24/models.py` — the `BaseModel` machinery (`__init__` from a
    defaults map, `as_dict`, `new_from_json_dict`, `__eq__`) and the concrete
    record types (Status, Range, Country, Competition, League, Team, Match);
  * `src/futbol24/api.py` — the cross-reference joins (`_map_competitions`,
    `_map_leagues`, `_map_teams`, `_map_matches`), the response parsing
    (`_parse_and_check_http_response`, `_parse_team_info_http_response`),
    URL construction (`_build_url`, `_encode_parameters`), request issuing
    (`_request_url`), the public operations, and the slug transliteration
    (`_replace_characters`).

Python values are modelled by the inductive `MVal`; Python dictionaries and
object attribute tables by association lists (`MFields`) that preserve
insertion order, exactly as Python 3.7+ dicts and instance `__dict__` do.
Python exceptions are modelled by `Except PyExc`; a function returning
`.error e` models the Python code raising the corresponding exception.
Third-party and standard-library code that the repository merely calls
(`requests`, `json.loads`, `lxml`/`re` scraping) is abstracted as function
parameters; everything written in the repository itself is translated
directly.
-/

/-- Python exceptions that the embedded code can raise.  `futbol24Error`
models `futbol24.error.Futbol24Error`, whose single argument (either a
`{'message': ...}` dict or a plain string at the call sites) carries the
human-readable message. -/
inductive PyExc : Type where
  | typeError : PyExc
  | jsonDecodeError : PyExc
  | indexError : PyExc
  | keyError : PyExc
  | attributeError : PyExc
  | futbol24Error (msg : String) : PyExc
deriving DecidableEq

deriving instance DecidableEq for Except

/-- Emptiness of a string via its character list (same value as
`String.isEmpty`, stated over `data` so that concrete instances evaluate). -/
def strIsEmpty (s : String) : Bool := s.data.isEmpty

mutual
/-- Python values as they occur in this library: `None`, booleans, ints,
strings, lists, dicts with string keys, and `BaseModel` instances.  A model
instance `mobj defaults attrs` carries its `param_defaults` table and its
instance attribute table (the keys of `attrs` are the attributes set on the
object, in insertion order, as in CPython's `__dict__`). -/
inductive MVal : Type where
  | pnone : MVal
  | pbool (b : Bool) : MVal
  | pint (n : Int) : MVal
  | pstr (s : String) : MVal
  | mlist (xs : MList) : MVal
  | mdict (kvs : MFields) : MVal
  | mobj (defaults : MFields) (attrs : MFields) : MVal
deriving DecidableEq
/-- A Python list of values. -/
inductive MList : Type where
  | nil : MList
  | cons (v : MVal) (tl : MList) : MList
deriving DecidableEq
/-- A string-keyed association table preserving insertion order: the model
for Python dicts and for instance attribute tables. -/
inductive MFields : Type where
  | nil : MFields
  | cons (k : String) (v : MVal) (tl : MFields) : MFields
deriving DecidableEq
end

/-- Python truthiness (`bool(x)`): `None` and `False` are falsy, numbers are
truthy iff nonzero, strings/lists/dicts iff nonempty; `BaseModel` defines
neither `__bool__` nor `__len__`, so model instances are always truthy. -/
def truthy : MVal → Bool
  | .pnone => false
  | .pbool b => b
  | .pint n => n != 0
  | .pstr s => !strIsEmpty s
  | .mlist xs => !(xs matches .nil)
  | .mdict kvs => !(kvs matches .nil)
  | .mobj _ _ => true

/-- First-occurrence lookup in an association table (Python dict lookup;
tables built by this code never carry duplicate keys). -/
def MFields.lookup (k : String) : MFields → Option MVal
  | .nil => none
  | .cons k' v tl => if k == k' then some v else MFields.lookup k tl

/-- Dict/attribute assignment: replaces the value at an existing key in
place, otherwise appends the key at the end — Python dict and `__dict__`
update semantics. -/
def MFields.set (k : String) (v : MVal) : MFields → MFields
  | .nil => .cons k v .nil
  | .cons k' v' tl => if k == k' then .cons k' v tl else .cons k' v' (MFields.set k v tl)

/-- Removal of a key (all occurrences; tables in this development have
unique keys).  Used to model `delattr` and `del d[k]` after the presence
check has been made by the caller. -/
def MFields.erase (k : String) : MFields → MFields
  | .nil => .nil
  | .cons k' v' tl => if k == k' then MFields.erase k tl else .cons k' v' (MFields.erase k tl)

/-- Keys of an association table, in order. -/
def MFields.keys : MFields → List String
  | .nil => []
  | .cons k _ tl => k :: MFields.keys tl

/-- Conversion to a Lean list of pairs (convenience for building literals
and for stating theorems). -/
def MFields.ofList : List (String × MVal) → MFields
  | [] => .nil
  | (k, v) :: tl => .cons k v (MFields.ofList tl)

/-- A Python list as a Lean list. -/
def MList.toList : MList → List MVal
  | .nil => []
  | .cons v tl => v :: MList.toList tl

/-- A Lean list as a Python list. -/
def MList.ofList : List MVal → MList
  | [] => .nil
  | v :: tl => .cons v (MList.ofList tl)

/-- Attribute read with a `None` default, modelling `getattr(self, key, None)`
as used by `BaseModel.as_dict` (models.py lines 45-63). -/
def attrD (v : MVal) (k : String) : MVal :=
  match v with
  | .mobj _ attrs => (attrs.lookup k).getD .pnone
  | _ => .pnone

/-- Plain attribute read `x.k` (no default): raises `AttributeError` when the
attribute is missing or the receiver is not a model object (`None.id`,
`5 .id`, ... all raise `AttributeError` in Python for the attribute names
used by this library). -/
def attrStrict (v : MVal) (k : String) : Except PyExc MVal :=
  match v with
  | .mobj _ attrs =>
    match attrs.lookup k with
    | some x => .ok x
    | none => .error .attributeError
  | _ => .error .attributeError

/-- Python `d.get(k, default)`: only dicts have a `.get` method; calling it
on any other value raises `AttributeError` (notably `None.get(...)` when a
raw match has no `home` dict). -/
def dictGet (v : MVal) (k : String) (dflt : MVal) : Except PyExc MVal :=
  match v with
  | .mdict kvs => .ok ((kvs.lookup k).getD dflt)
  | _ => .error .attributeError

/-- Python `del d[k]`: `KeyError` when the key is absent, `TypeError` when
the receiver does not support item deletion. -/
def dictDelItem (v : MVal) (k : String) : Except PyExc MVal :=
  match v with
  | .mdict kvs =>
    match kvs.lookup k with
    | some _ => .ok (.mdict (kvs.erase k))
    | none => .error .keyError
  | _ => .error .typeError

/-- Python `d[k] = v` on a dict; `TypeError` otherwise. -/
def dictSetItem (v : MVal) (k : String) (x : MVal) : Except PyExc MVal :=
  match v with
  | .mdict kvs => .ok (.mdict (kvs.set k x))
  | _ => .error .typeError

/-- Python `len(x)`: defined for strings, lists and dicts; `TypeError` for
values with no length (ints, bools, `None`). -/
def pyLen : MVal → Except PyExc Nat
  | .pstr s => .ok s.length
  | .mlist xs => .ok xs.toList.length
  | .mdict kvs => .ok kvs.keys.length
  | _ => .error .typeError

/-- Numeric view used by Python `==`: `True`/`False` compare equal to `1`/`0`. -/
def pyNum : MVal → Option Int
  | .pbool b => some (if b then 1 else 0)
  | .pint n => some n
  | _ => none

/-- Python `==` as used on the id fields of this API (numbers compare by
value across `bool`/`int`; all other values, which in this client are
`None` or strings, compare structurally). -/
def pyEqV (a b : MVal) : Bool :=
  match pyNum a, pyNum b with
  | some x, some y => x == y
  | _, _ => a == b

/-- `setattr(obj, k, v)`.  All call sites apply it to freshly constructed
model objects, so the non-object case (an `AttributeError` in Python) is
returned unchanged and never reached in the embedded flows. -/
def objSetAttr (v : MVal) (k : String) (x : MVal) : MVal :=
  match v with
  | .mobj d attrs => .mobj d (attrs.set k x)
  | v => v

/-- `delattr(obj, k)`: `AttributeError` when the attribute is missing or the
receiver is not a model object. -/
def objDelAttr (v : MVal) (k : String) : Except PyExc MVal :=
  match v with
  | .mobj d attrs =>
    match attrs.lookup k with
    | some _ => .ok (.mobj d (attrs.erase k))
    | none => .error .attributeError
  | _ => .error .attributeError

/-!  ## The model layer (models.py)

`BaseModel.__init__` of every concrete record type stores a fixed
`param_defaults` table and then runs
`for (param, default) in self.param_defaults.items():
     setattr(self, param, kwargs.get(param, default))`
so the attribute table lists exactly the default keys, in table order, each
bound to the supplied value or to its default.  Unknown keys in `kwargs`
are ignored; no key is required. -/

/-- The attribute table produced by `BaseModel.__init__` (models.py, the
per-class `__init__` loops). -/
def initAttrs (defaults kwargs : MFields) : MFields :=
  match defaults with
  | .nil => .nil
  | .cons k d tl => .cons k ((kwargs.lookup k).getD d) (initAttrs tl kwargs)

/-- `cls.new_from_json_dict(data)` (models.py lines 66-78) in the form used
by api.py — the `kwargs` parameter of `new_from_json_dict` is never passed
there, so the method reduces to `cls(**data)`. -/
def newFromJsonDict (defaults kwargs : MFields) : MVal :=
  .mobj defaults (initAttrs defaults kwargs)

/-- `param_defaults` of `Status` (models.py lines 88-95). -/
def statusDefaults : MFields := MFields.ofList
  [("update_countries", .pnone), ("update_competitions", .pnone),
   ("update_seasons", .pnone), ("update_leagues", .pnone),
   ("update_teams", .pnone), ("update_matches", .pnone)]

/-- `param_defaults` of `Range` (models.py lines 110-122). -/
def rangeDefaults : MFields := MFields.ofList
  [("date_d", .pnone), ("date_m", .pnone), ("type", .pnone),
   ("hour_new_day", .pnone), ("hour", .pnone), ("day", .pnone),
   ("day_s", .pnone), ("start", .pnone), ("start_s", .pnone),
   ("end", .pnone), ("end_s", .pnone)]

/-- `param_defaults` of `Country` (models.py lines 139-146). -/
def countryDefaults : MFields := MFields.ofList
  [("id", .pnone), ("national", .pbool false), ("name", .pnone),
   ("sname", .pnone), ("flag_url_medium", .pnone), ("updated", .pnone)]

/-- `param_defaults` of `Competition` (models.py lines 165-175). -/
def competitionDefaults : MFields := MFields.ofList
  [("id", .pnone), ("country_id", .pnone), ("popularity", .pnone),
   ("name", .pnone), ("foreground", .pnone), ("background", .pnone),
   ("standings", .pbool false), ("available_standings", .pbool false),
   ("updated", .pnone)]

/-- `param_defaults` of `League` (models.py lines 192-203). -/
def leagueDefaults : MFields := MFields.ofList
  [("id", .pnone), ("competition_id", .pnone), ("season_id", .pnone),
   ("name", .pnone), ("dname", .pnone), ("foreground", .pnone),
   ("background", .pbool false), ("standings", .pbool false),
   ("available_standings", .pnone), ("updated", .pnone)]

/-- `param_defaults` of `Team` (models.py lines 220-226). -/
def teamDefaults : MFields := MFields.ofList
  [("id", .pnone), ("country_id", .pnone), ("name", .pnone),
   ("sname", .pnone), ("updated", .pnone)]

/-- `param_defaults` of `Match` (models.py lines 243-261). -/
def matchDefaults : MFields := MFields.ofList
  [("id", .pnone), ("league_id", .pnone), ("start_date", .pnone),
   ("end_date", .pnone), ("start_offset", .pnone), ("half_length", .pnone),
   ("half_offset", .pnone), ("status_id", .pnone), ("minutes", .pnone),
   ("playnow", .pnone), ("injury", .pnone), ("home", .pnone),
   ("guest", .pnone), ("available_mask", .pnone),
   ("updated_actions", .pnone), ("updated_events_play", .pnone),
   ("updated", .pnone)]

/-- Size bound for values reached through an attribute-table lookup; needed
for the termination of `asDict` below. -/
theorem flookup_sizeOf {v : MVal} (l : MFields) (k : String)
    (h : MFields.lookup k l = some v) : sizeOf v < sizeOf l := by
  match l with
  | .nil => simp [MFields.lookup] at h
  | .cons k' v' tl =>
    rw [MFields.lookup] at h
    split at h
    · cases h; simp; omega
    · have := flookup_sizeOf tl k h; simp; omega

mutual
/-- One element of a list-valued attribute, as emitted by `as_dict`
(models.py lines 45-51): elements supporting `as_dict` (model instances)
are projected, anything else is passed through. -/
def projElem (v : MVal) : MVal :=
  match v with
  | .mobj d a => .mdict (asDict d a)
  | v => v
termination_by sizeOf v
/-- Elementwise projection of a list-valued attribute. -/
def projList (xs : MList) : MList :=
  match xs with
  | .nil => .nil
  | .cons v tl => .cons (projElem v) (projList tl)
termination_by sizeOf xs
/-- What `as_dict` emits for one attribute value (models.py lines 45-63):
list values are emitted with model elements projected (even an empty list
is emitted); model values are emitted as their projection; every other
value is emitted as-is when truthy and omitted when falsy.  Note that a
plain dict value is emitted unchanged — including any model objects stored
inside it. -/
def projAttr (v : MVal) : Option MVal :=
  match v with
  | .mlist xs => some (.mlist (projList xs))
  | .mobj d a => some (.mdict (asDict d a))
  | v => if truthy v then some v else none
termination_by sizeOf v
/-- `BaseModel.as_dict` (models.py lines 34-64): iterate over the
`param_defaults` keys, read each attribute with `getattr(self, key, None)`,
and emit according to `projAttr`.  A missing attribute (possible after
`delattr`) reads as `None`, which is falsy and therefore omitted. -/
def asDict (defaults attrs : MFields) : MFields :=
  match defaults with
  | .nil => .nil
  | .cons key _ rest =>
    match h : MFields.lookup key attrs with
    | none => asDict rest attrs
    | some a =>
      match projAttr a with
      | some pv => .cons key pv (asDict rest attrs)
      | none => asDict rest attrs
termination_by sizeOf attrs + sizeOf defaults
decreasing_by
  all_goals simp_wf
  all_goals first
    | omega
    | (have hsz := flookup_sizeOf _ _ h; omega)
end

/-- The projection of a model object (applies `asDict` to its tables). -/
def objAsDict (v : MVal) : MFields :=
  match v with
  | .mobj d a => asDict d a
  | _ => .nil

/-- `BaseModel.__eq__` (models.py lines 23-24) between two model objects:
`self.as_dict() == other.as_dict()`.  `as_dict` emits keys in the fixed
`param_defaults` order, so for objects of the same record type the Python
order-insensitive dict comparison coincides with this structural one; the
values compared in this development are projections and plain data. -/
def eqModel (a b : MVal) : Bool :=
  match a, b with
  | .mobj d1 a1, .mobj d2 a2 => asDict d1 a1 == asDict d2 a2
  | _, _ => false

/-!  ## Cross-reference joins (api.py lines 418-464)

Each `_map_*` static method constructs the record from its raw dict,
resolves a foreign key by `list(filter(lambda e: e.id == owner.fk, refs))[0]`
(an `IndexError` when the filtered list is empty), deletes the raw id
attribute and installs the resolved object under a new attribute key. -/

/-- `list(filter(p, xs))` for a predicate that may raise: elements are
tested left to right and the first exception propagates. -/
def filterE (p : MVal → Except PyExc Bool) : List MVal → Except PyExc (List MVal)
  | [] => .ok []
  | x :: xs => do
    let b ← p x
    let rest ← filterE p xs
    .ok (if b then x :: rest else rest)

/-- `xs[0]`: `IndexError` on an empty list. -/
def pyIndex0 (l : List MVal) : Except PyExc MVal :=
  match l with
  | [] => .error .indexError
  | x :: _ => .ok x

/-- The common shape of the filter lambdas of the `_map_*` methods:
`lambda e: e.id == <owner-side expression>`; the element's `id` is read
first, then the owner-side expression is evaluated (pure, so evaluating it
per element as the source lambda does always yields this same result). -/
def idPred (ownerSide : Except PyExc MVal) (e : MVal) : Except PyExc Bool := do
  let i ← attrStrict e "id"
  let fk ← ownerSide
  .ok (pyEqV i fk)

/-- The filter predicate `lambda e: e.id == owner.fkField`. -/
def idMatches (owner : MVal) (fkField : String) (e : MVal) : Except PyExc Bool :=
  idPred (attrStrict owner fkField) e

/-- `list(filter(lambda e: e.id == owner.fk, refs))[0]` — the shared
resolution step of all four `_map_*` methods. -/
def resolveFirst (owner : MVal) (fkField : String) (refs : List MVal) : Except PyExc MVal := do
  let l ← filterE (idMatches owner fkField) refs
  pyIndex0 l

/-- The first entity in `refs` whose `id` attribute equals `fk` — the
entity the join is specified to resolve to. -/
def findFirstById (refs : List MVal) (fk : MVal) : Option MVal :=
  refs.find? (fun e => pyEqV (attrD e "id") fk)

/-- `cls(**data)` requires a mapping; `TypeError` otherwise. -/
def asKwargs (v : MVal) : Except PyExc MFields :=
  match v with
  | .mdict kvs => .ok kvs
  | _ => .error .typeError

/-- `Api._map_competitions` (api.py lines 419-426). -/
def mapCompetitions (raw : MVal) (countries : List MVal) : Except PyExc MVal := do
  let kw ← asKwargs raw
  let comp := newFromJsonDict competitionDefaults kw
  let c ← resolveFirst comp "country_id" countries
  let comp ← objDelAttr comp "country_id"
  .ok (objSetAttr comp "country" c)

/-- `Api._map_leagues` (api.py lines 429-436). -/
def mapLeagues (raw : MVal) (competitions : List MVal) : Except PyExc MVal := do
  let kw ← asKwargs raw
  let lg := newFromJsonDict leagueDefaults kw
  let c ← resolveFirst lg "competition_id" competitions
  let lg ← objDelAttr lg "competition_id"
  .ok (objSetAttr lg "competition" c)

/-- `Api._map_teams` (api.py lines 439-446). -/
def mapTeams (raw : MVal) (countries : List MVal) : Except PyExc MVal := do
  let kw ← asKwargs raw
  let team := newFromJsonDict teamDefaults kw
  let c ← resolveFirst team "country_id" countries
  let team ← objDelAttr team "country_id"
  .ok (objSetAttr team "country" c)

/-- The filter predicate
`lambda team: team.id == match.home.get('team_id', -1)` used for the home
and guest sides of `_map_matches`; the dict read is re-evaluated per
element, as in the source lambda. -/
def sideMatches (m : MVal) (side : String) (t : MVal) : Except PyExc Bool :=
  idPred (do
    let home ← attrStrict m side
    dictGet home "team_id" (.pint (-1))) t

/-- Resolution and in-place rewrite of one side (`home`/`guest`) of a match
(api.py lines 456-462): find the referenced team, `del side['team_id']`,
`side['team'] = resolved`, and store the updated dict back.  The Python
code mutates the dict object in place; re-setting the attribute to the
updated dict is observationally the same here. -/
def mapMatchSide (m : MVal) (side : String) (teams : List MVal) : Except PyExc MVal := do
  let l ← filterE (sideMatches m side) teams
  let t ← pyIndex0 l
  let sd ← attrStrict m side
  let sd ← dictDelItem sd "team_id"
  let sd ← dictSetItem sd "team" t
  .ok (objSetAttr m side sd)

/-- `Api._map_matches` (api.py lines 449-464). -/
def mapMatches (raw : MVal) (leagues teams : List MVal) : Except PyExc MVal := do
  let kw ← asKwargs raw
  let m := newFromJsonDict matchDefaults kw
  let lg ← resolveFirst m "league_id" leagues
  let m ← objDelAttr m "league_id"
  let m := objSetAttr m "league" lg
  let m ← mapMatchSide m "home" teams
  let m ← mapMatchSide m "guest" teams
  .ok m

/-!  ## Response envelope and the matches pipeline -/

/-- Python `x.get(k, default)` chained on the parsed JSON envelope: only a
dict has `.get`. -/
def envGet (v : MVal) (k : String) (dflt : MVal) : Except PyExc MVal :=
  dictGet v k dflt

/-- `data.get('result', {}).get(section, {}).get('list', [])`, then the
iteration done by `list(map(...))`: iterating a non-list fails (in Python
the failure surfaces as a `TypeError` either at iteration or when the first
non-dict element reaches `cls(**data)`). -/
def envList (data : MVal) (sectionName : String) : Except PyExc (List MVal) := do
  let result ← envGet data "result" (.mdict .nil)
  let sec ← envGet result sectionName (.mdict .nil)
  let l ← envGet sec "list" (.mlist .nil)
  match l with
  | .mlist xs => .ok xs.toList
  | _ => .error .typeError

/-- `Country.new_from_json_dict(x)` on one raw element. -/
def countryFromJson (x : MVal) : Except PyExc MVal := do
  let kw ← asKwargs x
  .ok (newFromJsonDict countryDefaults kw)

/-- Modelled from the spec: the `Matches` aggregate returned by
`get_daily_matches` and `get_team_matches`.  `api.py` (line 12) imports
`Matches` from `futbol24.models` and constructs it as `Matches(matches)`
with the list of resolved matches, but the class itself is absent from
`models.py` (only a commented-out draft of an older, incompatible version
remains).  The spec describes it as an "ordered collection of Match,
aggregate/container only", which is what this structure is. -/
structure Matches : Type where
  items : List MVal
deriving DecidableEq

/-- The shared body of `get_daily_matches` (api.py lines 209-223) and
`get_team_matches` (api.py lines 162-176): both functions contain this same
sequence of envelope extractions and joins, mapping each raw list with
`list(map(...))` (so order is preserved and the first exception aborts the
call). -/
def matchesPayload (data : MVal) : Except PyExc Matches := do
  let cl ← envList data "countries"
  let countries ← cl.mapM countryFromJson
  let pl ← envList data "competitions"
  let competitions ← pl.mapM (fun x => mapCompetitions x countries)
  let ll ← envList data "leagues"
  let _leagues ← ll.mapM (fun x => mapLeagues x competitions)
  let tl ← envList data "teams"
  let teams ← tl.mapM (fun x => mapTeams x countries)
  let ml ← envList data "matches"
  let ms ← ml.mapM (fun x => mapMatches x _leagues teams)
  .ok ⟨ms⟩

/-- `get_countries` body after the HTTP step (api.py line 112). -/
def countriesPayload (data : MVal) : Except PyExc (List MVal) := do
  let cl ← envList data "countries"
  cl.mapM countryFromJson

/-- `get_competitions` body after the HTTP step (api.py lines 127-129). -/
def competitionsPayload (data : MVal) : Except PyExc (List MVal) := do
  let cl ← envList data "countries"
  let countries ← cl.mapM countryFromJson
  let pl ← envList data "competitions"
  pl.mapM (fun x => mapCompetitions x countries)

/-- `get_teams` body after the HTTP step (api.py lines 144-146). -/
def teamsPayload (data : MVal) : Except PyExc (List MVal) := do
  let cl ← envList data "countries"
  let countries ← cl.mapM countryFromJson
  let tl ← envList data "teams"
  tl.mapM (fun x => mapTeams x countries)

/-!  ## HTTP responses and response parsing (api.py lines 385-399, 466-491)

`requests.Response` is modelled by its observable parts: numeric status
code, reason phrase and (already `decode`d) body text.  `response.ok` in
the `requests` library is true exactly for status codes below 400.
`json.loads` is standard-library code, abstracted as a `loads` parameter:
on well-formed JSON it returns the decoded value, on malformed text it
raises `json.JSONDecodeError`, and it raises `TypeError` only for non-text
input (which `content.decode(...)` never produces). -/

structure HttpResponse : Type where
  status_code : Nat
  reason : String
  content : String
deriving DecidableEq

/-- The message `"Error {0} {1}".format(response.status_code, response.reason)`
used by both response parsers (api.py lines 391 and 472): it contains the
numeric status code followed by the reason phrase. -/
def httpErrorMessage (r : HttpResponse) : String :=
  "Error " ++ toString r.status_code ++ " " ++ r.reason

/-- `response.ok` of the `requests` library. -/
def respOk (r : HttpResponse) : Bool := r.status_code < 400

/-- `Api._parse_and_check_http_response` (api.py lines 385-399).  The
`except TypeError or json.JSONDecodeError:` clause of the source evaluates
the class expression `TypeError or json.JSONDecodeError` to `TypeError`, so
only a `TypeError` from `json.loads` is converted into
`Futbol24Error("Invalid JSON content")`; every other decoder exception
(in particular `json.JSONDecodeError`) propagates unchanged. -/
def parseAndCheckHttpResponse (resp : HttpResponse)
    (loads : String → Except PyExc MVal) : Except PyExc MVal :=
  if respOk resp then
    match loads resp.content with
    | .ok d => .ok d
    | .error e =>
      if e = .typeError then .error (.futbol24Error "Invalid JSON content")
      else .error e
  else
    .error (.futbol24Error (httpErrorMessage resp))

/-- `Api._parse_team_info_http_response` (api.py lines 466-491): the same
HTTP-success check, followed by the regex/lxml extraction of the
goals-in-minutes table.  That extraction only exercises third-party code
(`re`, `lxml.html`) on the body text, so it is abstracted as the `scrape`
parameter; absence of the expected markup makes it return an empty result
rather than raise. -/
def parseTeamInfoHttpResponse {α : Type} (resp : HttpResponse)
    (scrape : String → Except PyExc α) : Except PyExc α :=
  if respOk resp then scrape resp.content
  else .error (.futbol24Error (httpErrorMessage resp))

/-!  ## URL construction (api.py lines 361-383, 401-416)

`urlparse`, `urlunparse` and `urlencode` are Python standard library; they
are embedded here for the URL shapes this client produces (scheme,
optional `//netloc`, path, optional `;params`, `?query`, `#fragment`). -/

/-- Split a character list at the first occurrence of `c`. -/
def splitFirst (c : Char) : List Char → Option (List Char × List Char)
  | [] => none
  | x :: xs =>
    if x = c then some ([], xs)
    else
      match splitFirst c xs with
      | some (a, b) => some (x :: a, b)
      | none => none

/-- Characters allowed in a URL scheme by `urllib.parse`. -/
def isSchemeChar (c : Char) : Bool := c.isAlphanum || c = '+' || c = '-' || c = '.'

/-- Split at the last `/` (`url.rfind('/')`): returns the part before the
last slash and the part after it. -/
def splitLastSlash (l : List Char) : List Char × List Char :=
  match splitFirst '/' l.reverse with
  | some (pre, post) => (post.reverse, pre.reverse)
  | none => (l, [])

/-- `urllib.parse._splitparams`: separate `;params` from the last path
segment. -/
def splitParams (l : List Char) : List Char × List Char :=
  if l.contains '/' then
    match splitLastSlash l with
    | (before, after) =>
      match splitFirst ';' after with
      | some (a, b) => (before ++ '/' :: a, b)
      | none => (l, [])
  else
    match splitFirst ';' l with
    | some (a, b) => (a, b)
    | none => (l, [])

/-- The six components produced by `urllib.parse.urlparse`. -/
structure UrlParts : Type where
  scheme : String
  netloc : String
  path : String
  params : String
  query : String
  fragment : String
deriving DecidableEq

/-- `urllib.parse.urlparse`: split off `scheme:`, `//netloc`, `#fragment`,
`?query` and `;params` in the standard library's order. -/
def urlparse (url : String) : UrlParts :=
  let l := url.data
  let sr :=
    match splitFirst ':' l with
    | some (pre, post) =>
      if !pre.isEmpty && pre.all isSchemeChar then (pre.map Char.toLower, post)
      else (([] : List Char), l)
    | none => (([] : List Char), l)
  let scheme := sr.1
  let r1 := sr.2
  let nr :=
    match r1 with
    | '/' :: '/' :: r =>
      let n := r.takeWhile (fun c => !(c = '/' || c = '?' || c = '#'))
      (n, r.drop n.length)
    | _ => (([] : List Char), r1)
  let netloc := nr.1
  let r2 := nr.2
  let fr :=
    match splitFirst '#' r2 with
    | some (a, b) => (a, b)
    | none => (r2, ([] : List Char))
  let r3 := fr.1
  let fragment := fr.2
  let qr :=
    match splitFirst '?' r3 with
    | some (a, b) => (a, b)
    | none => (r3, ([] : List Char))
  let r4 := qr.1
  let query := qr.2
  let pp :=
    if r4.contains ';' then splitParams r4 else (r4, ([] : List Char))
  ⟨⟨scheme⟩, ⟨netloc⟩, ⟨pp.1⟩, ⟨pp.2⟩, ⟨query⟩, ⟨fragment⟩⟩

/-- Does the string start with `//`? (char-list form of `url[:2] == '//'`). -/
def startsSlashSlash (s : String) : Bool :=
  match s.data with
  | '/' :: '/' :: _ => true
  | _ => false

/-- Does the string start with `/`? (char-list form of `url[:1] == '/'`). -/
def startsSlash (s : String) : Bool :=
  match s.data with
  | '/' :: _ => true
  | _ => false

/-- `urllib.parse.urlunparse` / `urlunsplit`. -/
def urlunparse (p : UrlParts) : String :=
  let url0 := if strIsEmpty p.params then p.path else p.path ++ ";" ++ p.params
  let url1 :=
    if !strIsEmpty p.netloc || startsSlashSlash url0 then
      "//" ++ p.netloc ++ (if !strIsEmpty url0 && !startsSlash url0 then "/" ++ url0 else url0)
    else url0
  let url2 := if strIsEmpty p.scheme then url1 else p.scheme ++ ":" ++ url1
  let url3 := if strIsEmpty p.query then url2 else url2 ++ "?" ++ p.query
  if strIsEmpty p.fragment then url3 else url3 ++ "#" ++ p.fragment

/-- Upper-case hex digit. -/
def hexChar (n : Nat) : Char := if n < 10 then Char.ofNat (48 + n) else Char.ofNat (55 + n)

/-- The UTF-8 bytes of one character (standard encoding arithmetic). -/
def utf8Bytes (c : Char) : List Nat :=
  let n := c.toNat
  if n < 128 then [n]
  else if n < 2048 then [192 + n / 64, 128 + n % 64]
  else if n < 65536 then [224 + n / 4096, 128 + (n / 64) % 64, 128 + n % 64]
  else [240 + n / 262144, 128 + (n / 4096) % 64, 128 + (n / 64) % 64, 128 + n % 64]

/-- `urllib.parse.quote_plus` on one UTF-8 byte: unreserved bytes
(letters, digits, `_ . - ~`) stay, a space becomes `+`, everything else
becomes `%XX` with upper-case hex. -/
def quotePlusByte (n : Nat) : String :=
  if (65 ≤ n && n ≤ 90) || (97 ≤ n && n ≤ 122) || (48 ≤ n && n ≤ 57)
      || n == 95 || n == 46 || n == 45 || n == 126 then
    String.singleton (Char.ofNat n)
  else if n == 32 then "+"
  else "%" ++ String.singleton (hexChar (n / 16)) ++ String.singleton (hexChar (n % 16))

/-- `urllib.parse.quote_plus` over the UTF-8 encoding of a string. -/
def quotePlus (s : String) : String :=
  ((s.data.map utf8Bytes).flatten).foldl (fun acc b => acc ++ quotePlusByte b) ""

/-- `str(x)` / `'{}'.format(x)` for the value shapes this client formats
into URLs and query strings (containers are never formatted here). -/
def pyStrFormat : MVal → String
  | .pstr s => s
  | .pint n => toString n
  | .pbool b => if b then "True" else "False"
  | .pnone => "None"
  | _ => ""

/-- `&`-join. -/
def joinAmp : List String → String
  | [] => ""
  | [x] => x
  | x :: xs => x ++ "&" ++ joinAmp xs

/-- `/`-join (`'/'.join(p)`). -/
def joinSlash : List String → String
  | [] => ""
  | [x] => x
  | x :: xs => x ++ "/" ++ joinSlash xs

/-- Key/value pairs of a dict, in order. -/
def MFields.toList : MFields → List (String × MVal)
  | .nil => []
  | .cons k v tl => (k, v) :: MFields.toList tl

/-- `urllib.parse.urlencode` on string-keyed items:
`quote_plus(str(k)) + '=' + quote_plus(str(v))`, `&`-joined. -/
def urlencode (kvs : List (String × MVal)) : String :=
  joinAmp (kvs.map (fun kv => quotePlus kv.1 ++ "=" ++ quotePlus (pyStrFormat kv.2)))

/-- `Api._encode_parameters` (api.py lines 401-416): `None` maps to `None`,
a non-dict raises `Futbol24Error`, and a dict is urlencoded with the
`None`-valued entries dropped (`if v is not None`). -/
def encodeParameters (parameters : MVal) : Except PyExc (Option String) :=
  match parameters with
  | .pnone => .ok none
  | .mdict kvs => .ok (some (urlencode (kvs.toList.filter (fun kv => kv.2 != MVal.pnone))))
  | _ => .error (.futbol24Error "`parameters` must be a dict.")

/-- Does the string end with `/`? (char-list form of `path.endswith('/')`). -/
def endsWithSlash (s : String) : Bool := s.data.getLast? == some '/'

/-- `Api._build_url` (api.py lines 361-383): decompose the URL, append the
truthy extra path elements (when a truthy `path_elements` list is given),
and when `extra_params` is truthy with positive length, urlencode it and
join it onto any existing query with `&`.  `len()` of an unsized truthy
value raises `TypeError` before `_encode_parameters` is reached. -/
def buildUrl (url : String) (pathElements : Option (List String)) (extraParams : MVal) :
    Except PyExc String :=
  let parts := urlparse url
  let path :=
    match pathElements with
    | some pes =>
      if pes.isEmpty then parts.path
      else
        let p := pes.filter (fun s => !strIsEmpty s)
        (if endsWithSlash parts.path then parts.path else parts.path ++ "/") ++ joinSlash p
    | none => parts.path
  if truthy extraParams then
    match pyLen extraParams with
    | .error e => .error e
    | .ok n =>
      if n > 0 then
        match encodeParameters extraParams with
        | .error e => .error e
        | .ok none =>
          if !strIsEmpty parts.query then .error .typeError
          else .ok (urlunparse { parts with path := path, query := "" })
        | .ok (some extraQuery) =>
          let q := if !strIsEmpty parts.query then parts.query ++ "&" ++ extraQuery
            else extraQuery
          .ok (urlunparse { parts with path := path, query := q })
      else .ok (urlunparse { parts with path := path })
  else .ok (urlunparse { parts with path := path })

/-!  ## Client state and request issuing (api.py lines 20-99, 329-359)

The per-client configuration relevant to the claims: the request-header
map, the cookie map, the base URL and the timeout.  Construction
(`__init__` and its helpers) fills these; afterwards the code reads them
on every request.  `requests.get/post` never mutates the passed dicts. -/

structure ApiState : Type where
  request_headers : List (String × String)
  cookies : List (String × String)
  base_url : String
  timeout : Option Int
deriving DecidableEq

/-- String-valued dict assignment (same semantics as `MFields.set`). -/
def setKeyS (k v : String) : List (String × String) → List (String × String)
  | [] => [(k, v)]
  | (k', v') :: tl => if k == k' then (k', v) :: tl else (k', v') :: setKeyS k v tl

/-- `Api.set_user_agent` (api.py lines 93-99):
`self._request_headers['User-Agent'] = user_agent`. -/
def setUserAgent (st : ApiState) (userAgent : String) : ApiState :=
  { st with request_headers := setKeyS "User-Agent" userAgent st.request_headers }

/-- The outcome of `Api._request_url`: a GET or POST actually issued (with
the headers and cookies that were sent), or the literal `0` the source
returns for an unusable method/argument combination. -/
inductive RequestOut : Type where
  | getReq (url : String) (headers cookies : List (String × String)) : RequestOut
  | postReq (url : String) (headers cookies : List (String × String)) (data : MVal) : RequestOut
  | postJsonReq (url : String) (headers cookies : List (String × String)) (jsonData : String) :
      RequestOut
  | zeroResp : RequestOut
deriving DecidableEq

/-- `Api._request_url` (api.py lines 329-359).  The only mutation of client
state anywhere in the method is the POST-with-json branch, which writes
`self._request_headers['Content-Type'] = 'application/json'`; the GET branch
(the one used by every public operation) builds the URL and sends the
stored headers and cookies unchanged. -/
def requestUrl (st : ApiState) (url method : String) (data : MVal) (jsonData : Option String) :
    ApiState × Except PyExc RequestOut :=
  if method == "POST" then
    if truthy data then
      (st, .ok (.postReq url st.request_headers st.cookies data))
    else
      match jsonData with
      | some j =>
        if j.isEmpty then (st, .ok .zeroResp)
        else
          let st' :=
            { st with request_headers := setKeyS "Content-Type" "application/json" st.request_headers }
          (st', .ok (.postJsonReq url st'.request_headers st'.cookies j))
      | none => (st, .ok .zeroResp)
  else if method == "GET" then
    match buildUrl url none data with
    | .error e => (st, .error e)
    | .ok u => (st, .ok (.getReq u st.request_headers st.cookies))
  else (st, .ok .zeroResp)

/-!  ## Public operations (api.py lines 101-223)

Each operation builds its URL, issues one GET through `_request_url` with
empty parameters, and parses the response.  The network is abstracted as a
`fetch` function from the issued request to the server's response; the
JSON decoder as `loads` (see above).  Each operation is modelled as a
function from the client state to the state afterwards paired with the
result, so that the state effect of a call is part of the statement. -/

/-- The request actually issued by a GET flow. -/
structure HttpRequest : Type where
  url : String
  headers : List (String × String)
  cookies : List (String × String)
deriving DecidableEq

/-- Shared GET-and-parse-JSON skeleton of the five JSON operations:
`resp = self._request_url(url, 'GET', data={})`,
`data = self._parse_and_check_http_response(resp, ...)`, then the
per-operation payload mapping.  A `0` response (impossible for GET) would
hit `response.ok` on an int, an `AttributeError`. -/
def runJsonGet {α : Type} (st : ApiState) (url : String)
    (fetch : HttpRequest → HttpResponse) (loads : String → Except PyExc MVal)
    (payload : MVal → Except PyExc α) : ApiState × Except PyExc α :=
  match requestUrl st url "GET" (.mdict .nil) none with
  | (st1, .error e) => (st1, .error e)
  | (st1, .ok (.getReq u hs cs)) =>
    (st1, do
      let data ← parseAndCheckHttpResponse (fetch ⟨u, hs, cs⟩) loads
      payload data)
  | (st1, .ok _) => (st1, .error .attributeError)

/-- `Api.get_countries` (api.py lines 101-114). -/
def getCountriesOp (st : ApiState) (fetch : HttpRequest → HttpResponse)
    (loads : String → Except PyExc MVal) : ApiState × Except PyExc (List MVal) :=
  runJsonGet st (st.base_url ++ "/v2/countries") fetch loads countriesPayload

/-- `Api.get_competitions` (api.py lines 116-131). -/
def getCompetitionsOp (st : ApiState) (fetch : HttpRequest → HttpResponse)
    (loads : String → Except PyExc MVal) : ApiState × Except PyExc (List MVal) :=
  runJsonGet st (st.base_url ++ "/v2/competitions") fetch loads competitionsPayload

/-- `Api.get_teams` (api.py lines 133-148). -/
def getTeamsOp (st : ApiState) (fetch : HttpRequest → HttpResponse)
    (loads : String → Except PyExc MVal) : ApiState × Except PyExc (List MVal) :=
  runJsonGet st (st.base_url ++ "/v2/teams") fetch loads teamsPayload

/-- `Api.get_daily_matches` (api.py lines 192-223). -/
def getDailyMatchesOp (st : ApiState) (fetch : HttpRequest → HttpResponse)
    (loads : String → Except PyExc MVal) : ApiState × Except PyExc Matches :=
  runJsonGet st (st.base_url ++ "/v2/matches/day") fetch loads matchesPayload

/-- `Api.get_team_matches` (api.py lines 151-176): the URL interpolates
`team.id` (a strict attribute read, then `str()` formatting). -/
def getTeamMatchesOp (st : ApiState) (team : MVal) (fetch : HttpRequest → HttpResponse)
    (loads : String → Except PyExc MVal) : ApiState × Except PyExc Matches :=
  match attrStrict team "id" with
  | .error e => (st, .error e)
  | .ok tid =>
    runJsonGet st (st.base_url ++ "/v2/team/" ++ pyStrFormat tid ++ "/matches") fetch loads
      matchesPayload

/-!  ## Slug transliteration (api.py lines 493-603) -/

/-- The `translation_table` of `Api._replace_characters`, entry for entry
in source order.  Every key of the Python dict is a single character;
values are the replacement strings as character lists. -/
def translationTable : List (Char × List Char) :=
  [(' ', ['-']), ('/', ['-']), ('\\', ['-']), ('–', ['-']),
   ('(', []), (')', []), ('.', []), ('\'', []), ('º', []), ('°', []),
   ('‘', []), ('’', []), ('&', []),
   ('á', ['a']), ('à', ['a']), ('ä', ['a']), ('â', ['a']), ('ã', ['a']),
   ('å', ['a']), ('ă', ['a']), ('ą', ['a']),
   ('Å', ['A']), ('Á', ['A']), ('Ä', ['A']),
   ('æ', ['a', 'e']),
   ('ć', ['c']), ('č', ['c']), ('ç', ['c']), ('Ç', ['C']), ('Č', ['C']),
   ('đ', ['d']), ('ď', ['d']), ('ð', ['d']), ('Ď', ['D']),
   ('ë', ['e']), ('è', ['e']), ('é', ['e']), ('ê', ['e']), ('ě', ['e']),
   ('ė', ['e']), ('ę', ['e']), ('ə', []), ('É', ['e']),
   ('ğ', ['g']), ('ħ', ['h']),
   ('í', ['i']), ('Í', ['I']), ('ī', ['i']), ('ı', ['i']), ('î', ['i']),
   ('ï', ['i']), ('ì', ['i']), ('İ', ['I']), ('Î', ['I']),
   ('ĺ', ['l']), ('ľ', ['l']), ('ł', ['l']), ('Ł', ['L']),
   ('ň', ['n']), ('ń', ['n']), ('ñ', ['n']), ('ņ', ['n']), ('Ñ', ['N']),
   ('ø', ['o']), ('ö', ['o']), ('Ö', ['O']), ('ó', ['o']), ('õ', ['o']),
   ('ô', ['o']), ('ő', ['o']), ('Ø', ['O']), ('Ó', ['O']),
   ('œ', ['o', 'e']),
   ('ŕ', ['r']), ('ř', ['r']), ('Ř', ['R']),
   ('ś', ['s']), ('š', ['s']), ('ş', ['s']), ('ș', ['s']), ('Ș', ['S']),
   ('Ş', ['S']), ('Ś', ['S']), ('Š', ['S']), ('ß', ['s', 's']),
   ('ť', ['t']), ('ţ', ['t']), ('ț', ['t']),
   ('ü', ['u']), ('ú', ['u']), ('ů', ['u']), ('Ü', ['U']), ('ū', ['u']),
   ('Ú', ['U']), ('ų', ['u']),
   ('ý', ['y']),
   ('ž', ['z']), ('ż', ['z']), ('ź', ['z']), ('Ž', ['Z']), ('Ż', ['Z'])]

/-- `text.replace(old, new)` for a one-character pattern (every key of the
table is a single character): each occurrence of `k` becomes `v`. -/
def replaceAll (k : Char) (v : List Char) : List Char → List Char
  | [] => []
  | c :: cs => if c = k then v ++ replaceAll k v cs else c :: replaceAll k v cs

/-- The loop `for char, repl in translation_table.items():
text = text.replace(char, repl)` — the replacements applied sequentially,
in table order. -/
def applyTable : List (Char × List Char) → List Char → List Char
  | [], t => t
  | (k, v) :: rest, t => applyTable rest (replaceAll k v t)

/-- `Api._replace_characters` (api.py lines 493-603). -/
def replaceCharacters (s : String) : String := ⟨applyTable translationTable s.data⟩

/-- Written from the spec's words: substitute each character according to
the fixed table (first matching entry), leaving characters not in the
table unchanged. -/
def substFirst (table : List (Char × List Char)) (c : Char) : List Char :=
  match table with
  | [] => [c]
  | (k, v) :: rest => if c = k then v else substFirst rest c

/-- Characterwise expansion. -/
def charMap (f : Char → List Char) : List Char → List Char
  | [] => []
  | c :: cs => f c ++ charMap f cs

/-- Written from the spec's words: the slug of a name is the characterwise
application of the substitution table. -/
def slugSpec (s : String) : String := ⟨charMap (substFirst translationTable) s.data⟩

/-- `Api.get_team_info` (api.py lines 179-190): builds the scrape URL from
`team.country.name` and `team.name` (strict attribute reads; the
transliteration's `.replace` calls require the values to be strings), does
a GET, and parses the HTML response. -/
def teamInfoUrl (team : MVal) : Except PyExc String := do
  let c ← attrStrict team "country"
  let cn ← attrStrict c "name"
  let tn ← attrStrict team "name"
  let cns ← match cn with | .pstr s => .ok s | _ => .error .attributeError
  let tns ← match tn with | .pstr s => .ok s | _ => .error .attributeError
  .ok ("https://www.futbol24.com/team/" ++ replaceCharacters cns ++ "/"
    ++ replaceCharacters tns ++ "/")

def getTeamInfoOp {α : Type} (st : ApiState) (team : MVal)
    (fetch : HttpRequest → HttpResponse) (scrape : String → Except PyExc α) :
    ApiState × Except PyExc α :=
  match teamInfoUrl team with
  | .error e => (st, .error e)
  | .ok url =>
    match requestUrl st url "GET" (.mdict .nil) none with
    | (st1, .error e) => (st1, .error e)
    | (st1, .ok (.getReq u hs cs)) =>
      (st1, parseTeamInfoHttpResponse (fetch ⟨u, hs, cs⟩) scrape)
    | (st1, .ok _) => (st1, .error .attributeError)

/-!  ## Concrete sample values used below by witnesses and counterexamples -/

/-- Model of `json.loads` applied to a body that is not valid JSON: the
decoder raises `json.JSONDecodeError`. -/
def malformedLoads : String → Except PyExc MVal := fun _ => .error .jsonDecodeError

/-- Concrete client state used by witnesses. -/
def sampleState : ApiState :=
  { request_headers := [("Accept", "application/json"),
      ("User-Agent", "Futbol24 2.30/61 (compatible)")],
    cookies := [("f24-asi", "f24-asi=8926")],
    base_url := "http://api.futbol24.gluak.com",
    timeout := none }

/-- Concrete team object (a constructed `Team` with its resolved country
attached, as `get_team_matches`/`get_team_info` expect). -/
def sampleTeamObj : MVal :=
  objSetAttr
    (newFromJsonDict teamDefaults
      (MFields.ofList [("id", .pint 2), ("name", .pstr "Rapid"), ("country_id", .pint 1)]))
    "country"
    (newFromJsonDict countryDefaults
      (MFields.ofList [("id", .pint 1), ("name", .pstr "Austria")]))

/-- Countries used by the join witnesses; the last two share id 2 so that
the first-match policy is visible. -/
def wCountry1 : MVal :=
  newFromJsonDict countryDefaults (MFields.ofList [("id", .pint 1), ("name", .pstr "Austria")])

def wCountry2 : MVal :=
  newFromJsonDict countryDefaults (MFields.ofList [("id", .pint 2), ("name", .pstr "Slovakia")])

def wCountry2b : MVal :=
  newFromJsonDict countryDefaults (MFields.ofList [("id", .pint 2), ("name", .pstr "Duplicate")])

def wCountries : List MVal := [wCountry1, wCountry2, wCountry2b]

def wTeamKw : MFields :=
  MFields.ofList [("id", .pint 10), ("country_id", .pint 2), ("name", .pstr "Rapid")]

def wTeamRaw : MVal := .mdict wTeamKw

def wTeamJoined : MVal :=
  match mapTeams wTeamRaw wCountries with
  | .ok t => t
  | .error _ => .pnone

def wTeamKwMissing : MFields :=
  MFields.ofList [("id", .pint 11), ("country_id", .pint 99), ("name", .pstr "Ghost")]

/-- Does `as_dict` keep an attribute with this value?  List values are
always kept (models.py line 45 assigns unconditionally); any other
non-model value is kept exactly when truthy. -/
def keepVal (v : MVal) : Bool := (v matches .mlist _) || truthy v

mutual
/-- No model object occurs anywhere inside the value — true of every value
decoded from JSON. -/
def noObjV : MVal → Bool
  | .pnone => true
  | .pbool _ => true
  | .pint _ => true
  | .pstr _ => true
  | .mlist xs => noObjL xs
  | .mdict kvs => noObjF kvs
  | .mobj _ _ => false
def noObjL : MList → Bool
  | .nil => true
  | .cons v tl => noObjV v && noObjL tl
def noObjF : MFields → Bool
  | .nil => true
  | .cons _ v tl => noObjV v && noObjF tl
end

/-- The default values of the shipped record types: `None` or `False`,
both falsy non-lists, so an unsupplied field is never emitted. -/
def benignDefault : MVal → Bool
  | .pnone => true
  | .pbool b => !b
  | _ => false

/-- All defaults of the table are benign. -/
def benignF : MFields → Bool
  | .nil => true
  | .cons _ d tl => benignDefault d && benignF tl

/-- Written from the spec side of the claim: the projection of a record
built from `kvs` keeps exactly the supplied fields that `as_dict` emits
(truthy or list-valued), in `param_defaults` order, with their values
unchanged. -/
def filterEmit (defaults kvs : MFields) : MFields :=
  match defaults with
  | .nil => .nil
  | .cons k _ tl =>
    match kvs.lookup k with
    | some v => if keepVal v then .cons k v (filterEmit tl kvs) else filterEmit tl kvs
    | none => filterEmit tl kvs

def c3kvs : MFields :=
  MFields.ofList [("name", .pstr "Slovakia"), ("national", .pbool true)]

def xLeague : MVal :=
  newFromJsonDict leagueDefaults (MFields.ofList [("id", .pint 7), ("name", .pstr "League")])

def xTeamA : MVal :=
  newFromJsonDict teamDefaults
    (MFields.ofList [("id", .pint 2), ("name", .pstr "Alpha"), ("country_id", .pint 1)])

def xTeamB : MVal :=
  newFromJsonDict teamDefaults
    (MFields.ofList [("id", .pint 2), ("name", .pstr "Beta"), ("country_id", .pint 1)])

def xMatchRaw : MVal := .mdict (MFields.ofList
  [("id", .pint 1), ("league_id", .pint 7),
   ("home", .mdict (MFields.ofList [("team_id", .pint 2)])),
   ("guest", .mdict (MFields.ofList [("team_id", .pint 2)]))])

def xJoinedA : MVal :=
  match mapMatches xMatchRaw [xLeague] [xTeamA] with
  | .ok m => m
  | .error _ => .pnone

def xJoinedB : MVal :=
  match mapMatches xMatchRaw [xLeague] [xTeamB] with
  | .ok m => m
  | .error _ => .pnone

/-- The attribute table of the joined sample match, for either team. -/
def xAttrs (team : MVal) : MFields := MFields.ofList
  [("id", .pint 1), ("start_date", .pnone), ("end_date", .pnone), ("start_offset", .pnone),
   ("half_length", .pnone), ("half_offset", .pnone), ("status_id", .pnone), ("minutes", .pnone),
   ("playnow", .pnone), ("injury", .pnone),
   ("home", .mdict (.cons "team" team .nil)),
   ("guest", .mdict (.cons "team" team .nil)),
   ("available_mask", .pnone), ("updated_actions", .pnone), ("updated_events_play", .pnone),
   ("updated", .pnone), ("league", xLeague)]

/-- A concrete well-formed matches envelope: one country, one competition,
one league, two teams, and one match whose `league_id`, `home.team_id` and
`guest.team_id` all resolve. -/
def sampleMatchesData : MVal := .mdict (MFields.ofList
  [("result", .mdict (MFields.ofList
    [("countries", .mdict (MFields.ofList
       [("list", .mlist (MList.ofList
         [.mdict (MFields.ofList [("id", .pint 1), ("name", .pstr "Austria")])]))])),
     ("competitions", .mdict (MFields.ofList
       [("list", .mlist (MList.ofList
         [.mdict (MFields.ofList [("id", .pint 5), ("country_id", .pint 1)])]))])),
     ("leagues", .mdict (MFields.ofList
       [("list", .mlist (MList.ofList
         [.mdict (MFields.ofList [("id", .pint 7), ("competition_id", .pint 5)])]))])),
     ("teams", .mdict (MFields.ofList
       [("list", .mlist (MList.ofList
         [.mdict (MFields.ofList [("id", .pint 2), ("country_id", .pint 1)]),
          .mdict (MFields.ofList [("id", .pint 3), ("country_id", .pint 1)])]))])),
     ("matches", .mdict (MFields.ofList
       [("list", .mlist (MList.ofList
         [.mdict (MFields.ofList
           [("id", .pint 9), ("league_id", .pint 7),
            ("home", .mdict (MFields.ofList [("team_id", .pint 2)])),
            ("guest", .mdict (MFields.ofList [("team_id", .pint 3)]))])]))]))]))])

/-- The `Matches` value the pipeline produces on `sampleMatchesData`. -/
def sampleMatchesResult : Matches :=
  match matchesPayload sampleMatchesData with
  | .ok M => M
  | .error _ => ⟨[]⟩

/-!  ## Basic lemmas about the embedding -/

theorem except_bind_ok {α β : Type} {x : Except PyExc α} {f : α → Except PyExc β} {b : β} :
    x >>= f = .ok b ↔ ∃ a, x = .ok a ∧ f a = .ok b := by
  cases x <;> simp [Bind.bind, Except.bind]

theorem except_bind_error {α β : Type} {x : Except PyExc α} {f : α → Except PyExc β} {e : PyExc} :
    x = .error e → (x >>= f) = .error e := by
  intro h; rw [h]; rfl

theorem except_bind_ok_error {α β : Type} {x : Except PyExc α} {f : α → Except PyExc β}
    {a : α} {e : PyExc} : x = .ok a → f a = .error e → (x >>= f) = .error e := by
  intro h1 h2; rw [h1]; simpa [Bind.bind, Except.bind] using h2

theorem flookup_cons_ne {k k0 : String} {v0 : MVal} {tl : MFields} (h : k ≠ k0) :
    MFields.lookup k (.cons k0 v0 tl) = MFields.lookup k tl := by
  simp [MFields.lookup, h]

theorem flookup_set_self (attrs : MFields) (k : String) (v : MVal) :
    MFields.lookup k (attrs.set k v) = some v := by
  match attrs with
  | .nil => simp [MFields.set, MFields.lookup]
  | .cons k' v' tl =>
    by_cases hk : k == k'
    · simp [MFields.set, hk, MFields.lookup]
    · simp [MFields.set, hk, MFields.lookup, flookup_set_self tl k v]

theorem flookup_set_ne (attrs : MFields) {k k0 : String} (v : MVal) (h : k ≠ k0) :
    MFields.lookup k (attrs.set k0 v) = MFields.lookup k attrs := by
  match attrs with
  | .nil => simp [MFields.set, MFields.lookup, h]
  | .cons k' v' tl =>
    by_cases hk : k0 == k'
    · have hkk' : (k == k') = false := by
        have : k0 = k' := by simpa using hk
        subst this
        simpa using h
      simp [MFields.set, hk, MFields.lookup, hkk']
    · simp only [MFields.set, hk, if_false]
      simp only [MFields.lookup]
      rw [flookup_set_ne tl v h]

theorem flookup_erase_self (attrs : MFields) (k : String) :
    MFields.lookup k (attrs.erase k) = none := by
  match attrs with
  | .nil => simp [MFields.erase, MFields.lookup]
  | .cons k' v' tl =>
    by_cases hk : k == k'
    · simp [MFields.erase, hk, flookup_erase_self tl k]
    · simp [MFields.erase, hk, MFields.lookup, flookup_erase_self tl k]

theorem flookup_erase_ne (attrs : MFields) {k k0 : String} (h : k ≠ k0) :
    MFields.lookup k (attrs.erase k0) = MFields.lookup k attrs := by
  match attrs with
  | .nil => simp [MFields.erase]
  | .cons k' v' tl =>
    by_cases hk : k0 == k'
    · have : k0 = k' := by simpa using hk
      subst this
      have hkk' : (k == k0) = false := by simpa using h
      simp [MFields.erase, MFields.lookup, hkk', flookup_erase_ne tl h]
    · simp only [MFields.erase, hk, if_false]
      simp only [MFields.lookup]
      rw [flookup_erase_ne tl h]

theorem flookup_none_of_not_mem_keys {k : String} {l : MFields} (h : k ∉ l.keys) :
    MFields.lookup k l = none := by
  match l with
  | .nil => rfl
  | .cons k' v' tl =>
    simp [MFields.keys] at h
    simp [MFields.lookup, h.1, flookup_none_of_not_mem_keys h.2]

theorem flookup_mem_keys {k : String} {l : MFields} {v : MVal}
    (h : MFields.lookup k l = some v) : k ∈ l.keys := by
  match l with
  | .nil => simp [MFields.lookup] at h
  | .cons k' v' tl =>
    rw [MFields.lookup] at h
    split at h
    · next heq => simp [MFields.keys]; left; simpa using heq
    · simp [MFields.keys]; right; exact flookup_mem_keys h

/-- `(l.filter p)[0]`, when it exists, is the first element satisfying `p`. -/
theorem head_filter_eq_find {α : Type} (p : α → Bool) (l : List α) :
    (l.filter p).head? = l.find? p := by
  induction l with
  | nil => rfl
  | cons x xs ih =>
    by_cases hx : p x
    · simp [List.filter, hx, List.find?]
    · simp [List.filter, hx, List.find?, ih]

/-!  ## Claim C4 — JSON decode failure handling -/

/-- C4: the claim states that an HTTP-success response whose body is not
valid JSON makes the parsing step raise the library's `Futbol24Error`
parse error.  The code does not: `except TypeError or json.JSONDecodeError:`
(api.py line 396) evaluates its class expression to `TypeError`, so the
`json.JSONDecodeError` raised by `json.loads` on a malformed body
propagates to the caller unchanged.  This theorem evaluates the embedded
parser on an HTTP 200 response whose body fails to decode: the result is
the raw decoder error, not `Futbol24Error("Invalid JSON content")`; the
second conjunct shows that the handler does fire for a `TypeError`, which
is what the source intended for decode failures. -/
theorem c4_malformed_json_propagates_raw_decoder_error :
    parseAndCheckHttpResponse ⟨200, "OK", "not json"⟩ malformedLoads
      = .error .jsonDecodeError
  ∧ parseAndCheckHttpResponse ⟨200, "OK", "not json"⟩ (fun _ => .error .typeError)
      = .error (.futbol24Error "Invalid JSON content") := ⟨rfl, rfl⟩

/-!  ## Claim C6 — non-success HTTP responses -/

theorem runJsonGet_nonok {α : Type} (st : ApiState) (url : String) (resp : HttpResponse)
    (loads : String → Except PyExc MVal) (payload : MVal → Except PyExc α)
    (h : respOk resp = false) :
    (runJsonGet st url (fun _ => resp) loads payload).2
      = .error (.futbol24Error (httpErrorMessage resp)) := by
  simp [runJsonGet, requestUrl, buildUrl, truthy, parseAndCheckHttpResponse, h,
    Bind.bind, Except.bind]

/-- C6: every public operation gives any non-success HTTP response (for
example a 404 "Not Found") to a parser that immediately raises
`Futbol24Error` with the message `"Error {status_code} {reason}"` — which
contains both the numeric code and the reason phrase — and the response
body is never parsed as a payload (the operation's result is exactly this
error).  For `get_team_matches`/`get_team_info` the stated attribute reads
on the passed team are the ones the source performs before issuing the
request. -/
theorem c6_non_success_status_raises_client_error (st : ApiState) (resp : HttpResponse)
    (loads : String → Except PyExc MVal) (scrape : String → Except PyExc MVal)
    (team tid cobj : MVal) (cname tname : String)
    (h : respOk resp = false) :
    (getCountriesOp st (fun _ => resp) loads).2
        = .error (.futbol24Error (httpErrorMessage resp))
  ∧ (getCompetitionsOp st (fun _ => resp) loads).2
        = .error (.futbol24Error (httpErrorMessage resp))
  ∧ (getTeamsOp st (fun _ => resp) loads).2
        = .error (.futbol24Error (httpErrorMessage resp))
  ∧ (getDailyMatchesOp st (fun _ => resp) loads).2
        = .error (.futbol24Error (httpErrorMessage resp))
  ∧ (attrStrict team "id" = .ok tid →
      (getTeamMatchesOp st team (fun _ => resp) loads).2
        = .error (.futbol24Error (httpErrorMessage resp)))
  ∧ (attrStrict team "country" = .ok cobj → attrStrict cobj "name" = .ok (.pstr cname) →
      attrStrict team "name" = .ok (.pstr tname) →
      (getTeamInfoOp st team (fun _ => resp) scrape).2
        = .error (.futbol24Error (httpErrorMessage resp))) := by
  refine ⟨runJsonGet_nonok _ _ _ _ _ h, runJsonGet_nonok _ _ _ _ _ h,
    runJsonGet_nonok _ _ _ _ _ h, runJsonGet_nonok _ _ _ _ _ h, ?_, ?_⟩
  · intro hid
    simp [getTeamMatchesOp, hid, runJsonGet_nonok _ _ _ _ _ h]
  · intro hc hcn htn
    simp [getTeamInfoOp, teamInfoUrl, hc, hcn, htn, requestUrl, buildUrl, truthy,
      parseTeamInfoHttpResponse, h, Bind.bind, Except.bind]

/-- Witness for C6 at a concrete 404 response. -/
theorem c6_witness :
    (getCountriesOp sampleState (fun _ => ⟨404, "Not Found", ""⟩) malformedLoads).2
        = .error (.futbol24Error (httpErrorMessage ⟨404, "Not Found", ""⟩))
  ∧ (getCompetitionsOp sampleState (fun _ => ⟨404, "Not Found", ""⟩) malformedLoads).2
        = .error (.futbol24Error (httpErrorMessage ⟨404, "Not Found", ""⟩))
  ∧ (getTeamsOp sampleState (fun _ => ⟨404, "Not Found", ""⟩) malformedLoads).2
        = .error (.futbol24Error (httpErrorMessage ⟨404, "Not Found", ""⟩))
  ∧ (getDailyMatchesOp sampleState (fun _ => ⟨404, "Not Found", ""⟩) malformedLoads).2
        = .error (.futbol24Error (httpErrorMessage ⟨404, "Not Found", ""⟩))
  ∧ (getTeamMatchesOp sampleState sampleTeamObj (fun _ => ⟨404, "Not Found", ""⟩)
        malformedLoads).2
        = .error (.futbol24Error (httpErrorMessage ⟨404, "Not Found", ""⟩))
  ∧ (getTeamInfoOp sampleState sampleTeamObj (fun _ => ⟨404, "Not Found", ""⟩)
        (fun _ => .ok MVal.pnone)).2
        = .error (.futbol24Error (httpErrorMessage ⟨404, "Not Found", ""⟩)) := by
  have h := c6_non_success_status_raises_client_error sampleState ⟨404, "Not Found", ""⟩
    malformedLoads (fun _ => .ok MVal.pnone) sampleTeamObj (.pint 2)
    (newFromJsonDict countryDefaults
      (MFields.ofList [("id", .pint 1), ("name", .pstr "Austria")]))
    "Austria" "Rapid" rfl
  exact ⟨h.1, h.2.1, h.2.2.1, h.2.2.2.1, h.2.2.2.2.1 rfl, h.2.2.2.2.2 rfl rfl rfl⟩

/-!  ## Claim C9 — the client configuration is never mutated by reads -/

theorem runJsonGet_fst {α : Type} (st : ApiState) (url : String)
    (fetch : HttpRequest → HttpResponse) (loads : String → Except PyExc MVal)
    (payload : MVal → Except PyExc α) :
    (runJsonGet st url fetch loads payload).1 = st := by
  simp [runJsonGet, requestUrl, buildUrl, truthy]

theorem lookup_setKeyS_ne (l : List (String × String)) {k k0 : String} (v : String)
    (h : k ≠ k0) : List.lookup k (setKeyS k0 v l) = List.lookup k l := by
  induction l with
  | nil =>
    have hkk : (k == k0) = false := by simpa using h
    simp [setKeyS, List.lookup, hkk]
  | cons p tl ih =>
    obtain ⟨k', v'⟩ := p
    by_cases hk : k0 == k'
    · have : k0 = k' := by simpa using hk
      subst this
      have hkk' : (k == k0) = false := by simpa using h
      simp [setKeyS, List.lookup, hkk']
    · simp only [setKeyS, hk, if_false]
      simp only [List.lookup]
      rw [ih]

theorem lookup_setKeyS_self (l : List (String × String)) {k : String} (v : String) :
    List.lookup k (setKeyS k v l) = some v := by
  induction l with
  | nil => simp [setKeyS, List.lookup]
  | cons p tl ih =>
    obtain ⟨k', v'⟩ := p
    by_cases hk : k == k'
    · simp [setKeyS, hk, List.lookup]
    · simp only [setKeyS, hk, if_false]
      simp only [List.lookup, hk]
      exact ih

/-- C9: after construction, no public operation changes the client
configuration — headers, cookies, base URL and timeout afterwards equal
their values beforehand, for every operation and for the internal
`_request_url` GET they issue; the only exception, `set_user_agent`,
rewrites exactly the `User-Agent` header and touches nothing else. -/
theorem c9_operations_never_mutate_configuration (st : ApiState)
    (fetch : HttpRequest → HttpResponse) (loads : String → Except PyExc MVal)
    (scrape : String → Except PyExc MVal) (team : MVal) (ua url : String) (data : MVal) :
    (getCountriesOp st fetch loads).1 = st
  ∧ (getCompetitionsOp st fetch loads).1 = st
  ∧ (getTeamsOp st fetch loads).1 = st
  ∧ (getDailyMatchesOp st fetch loads).1 = st
  ∧ (getTeamMatchesOp st team fetch loads).1 = st
  ∧ (getTeamInfoOp st team fetch scrape).1 = st
  ∧ (requestUrl st url "GET" data none).1 = st
  ∧ (setUserAgent st ua).cookies = st.cookies
  ∧ (setUserAgent st ua).base_url = st.base_url
  ∧ (setUserAgent st ua).timeout = st.timeout
  ∧ (∀ k, k ≠ "User-Agent" →
      List.lookup k (setUserAgent st ua).request_headers
        = List.lookup k st.request_headers)
  ∧ List.lookup "User-Agent" (setUserAgent st ua).request_headers = some ua := by
  refine ⟨runJsonGet_fst .., runJsonGet_fst .., runJsonGet_fst .., runJsonGet_fst ..,
    ?_, ?_, ?_, rfl, rfl, rfl, ?_, ?_⟩
  · unfold getTeamMatchesOp
    split
    · rfl
    · exact runJsonGet_fst ..
  · unfold getTeamInfoOp
    split
    · rfl
    · simp [requestUrl, buildUrl, truthy]
  · rcases hb : buildUrl url none data with e | u <;> simp [requestUrl, hb]
  · intro k hk
    exact lookup_setKeyS_ne _ _ hk
  · exact lookup_setKeyS_self st.request_headers ua

/-- Witness for C9 at a concrete state, operation set and header key. -/
theorem c9_witness :
    (getCountriesOp sampleState (fun _ => ⟨200, "OK", ""⟩) malformedLoads).1 = sampleState
  ∧ (getTeamInfoOp sampleState sampleTeamObj (fun _ => ⟨200, "OK", ""⟩)
      (fun _ => .ok MVal.pnone)).1 = sampleState
  ∧ List.lookup "Accept" (setUserAgent sampleState "agent2").request_headers
      = List.lookup "Accept" sampleState.request_headers
  ∧ List.lookup "User-Agent" (setUserAgent sampleState "agent2").request_headers
      = some "agent2" := by
  have h := c9_operations_never_mutate_configuration sampleState
    (fun _ => ⟨200, "OK", ""⟩) malformedLoads (fun _ => .ok MVal.pnone) sampleTeamObj
    "agent2" "http://api.futbol24.gluak.com/v2/countries" (.mdict .nil)
  exact ⟨h.1, h.2.2.2.2.2.1, h.2.2.2.2.2.2.2.2.2.2.1 "Accept" (by decide),
    h.2.2.2.2.2.2.2.2.2.2.2⟩

/-!  ## Claim C7 — URL building -/

/-- C7 (amended): with a base URL that has an existing query string, a
nonempty dict of extra parameters is urlencoded with `None`-valued entries
dropped and joined onto the original query with `&`.  Non-dict parameter
values behave as the source does, not as the original claim states:
falsy values (`None`, `''`) are silently ignored, a truthy value with a
length (a nonempty string) raises the client error, and a truthy value
without a length (a nonzero int) raises a raw `TypeError` from `len()`. -/
theorem c7_build_url_query_merge (url : String) (kvs : MFields) (n : Int)
    (hq : strIsEmpty (urlparse url).query = false) (hk : kvs ≠ .nil) (hn : n ≠ 0) :
    buildUrl url none (.mdict kvs)
      = .ok (urlunparse { urlparse url with
          query := (urlparse url).query ++ "&"
            ++ urlencode (kvs.toList.filter (fun kv => kv.2 != MVal.pnone)) })
  ∧ buildUrl url none .pnone = .ok (urlunparse (urlparse url))
  ∧ buildUrl url none (.pstr "") = .ok (urlunparse (urlparse url))
  ∧ buildUrl url none (.pstr "x") = .error (.futbol24Error "`parameters` must be a dict.")
  ∧ buildUrl url none (.pint n) = .error .typeError := by
  refine ⟨?_, rfl, rfl, rfl, ?_⟩
  · match kvs with
    | .nil => exact absurd rfl hk
    | .cons k v tl =>
      simp [buildUrl, truthy, pyLen, MFields.keys, encodeParameters, hq]
  · have hb : (n != 0) = true := by simpa using hn
    simp [buildUrl, truthy, hb, pyLen]

/-- Counterexample for C7 as stated: the claim says parameter maps that are
not dictionaries raise the client error.  An empty-string parameter map is
not a dictionary and raises nothing (the URL is returned untouched), and a
nonzero integer raises a raw `TypeError`, not the client error. -/
theorem c7_counterexample_non_dict_params :
    buildUrl "http://api.example.com/data?x=1" none (.pstr "")
      = .ok "http://api.example.com/data?x=1"
  ∧ buildUrl "http://api.example.com/data?x=1" none (.pint 5) = .error .typeError := by
  constructor <;> rfl

/-- Witness for C7 at a concrete URL and parameter dict (the `skip` entry
is `None`-valued and dropped; the space in `b c` is `+`-encoded). -/
theorem c7_witness :
    buildUrl "http://h.example/p?q=1" none
        (.mdict (MFields.ofList [("a", .pstr "b c"), ("skip", .pnone)]))
      = .ok (urlunparse { urlparse "http://h.example/p?q=1" with
          query := (urlparse "http://h.example/p?q=1").query ++ "&"
            ++ urlencode ((MFields.ofList [("a", .pstr "b c"), ("skip", .pnone)]).toList.filter
                (fun kv => kv.2 != MVal.pnone)) })
  ∧ buildUrl "http://h.example/p?q=1" none
        (.mdict (MFields.ofList [("a", .pstr "b c"), ("skip", .pnone)]))
      = .ok "http://h.example/p?q=1&a=b+c" := by
  refine ⟨(c7_build_url_query_merge "http://h.example/p?q=1"
    (MFields.ofList [("a", .pstr "b c"), ("skip", .pnone)]) 5 (by decide) (by decide)
    (by decide)).1, ?_⟩
  rfl

/-!  ## Claim C8 — slug transliteration -/

theorem charMap_append (f : Char → List Char) (a b : List Char) :
    charMap f (a ++ b) = charMap f a ++ charMap f b := by
  induction a with
  | nil => rfl
  | cons c cs ih => simp [charMap, ih]

theorem charMap_id (s : List Char) : charMap (fun c => [c]) s = s := by
  induction s with
  | nil => rfl
  | cons c cs ih => simp [charMap, ih]

theorem replaceAll_eq_charMap (k : Char) (v : List Char) (s : List Char) :
    replaceAll k v s = charMap (fun c => if c = k then v else [c]) s := by
  induction s with
  | nil => rfl
  | cons c cs ih =>
    by_cases hc : c = k
    · simp [replaceAll, charMap, hc, ih]
    · simp [replaceAll, charMap, hc, ih]

theorem charMap_comp (f g : Char → List Char) (s : List Char) :
    charMap g (charMap f s) = charMap (fun c => charMap g (f c)) s := by
  induction s with
  | nil => rfl
  | cons c cs ih => simp [charMap, charMap_append, ih]

theorem charMap_congr (f g : Char → List Char) (s : List Char)
    (h : ∀ c, f c = g c) : charMap f s = charMap g s := by
  induction s with
  | nil => rfl
  | cons c cs ih => simp [charMap, h c, ih]

theorem charMap_fixed (f : Char → List Char) (v : List Char)
    (h : ∀ c ∈ v, f c = [c]) : charMap f v = v := by
  induction v with
  | nil => rfl
  | cons c cs ih =>
    simp [charMap, h c (by simp)]
    exact ih (fun c hc => h c (by simp [hc]))

theorem substFirst_not_key (table : List (Char × List Char)) (c : Char)
    (h : c ∉ table.map Prod.fst) : substFirst table c = [c] := by
  induction table with
  | nil => rfl
  | cons p rest ih =>
    obtain ⟨k, v⟩ := p
    have h1 : c ≠ k := fun hc => h (by simp [hc])
    have h2 : c ∉ rest.map Prod.fst := fun hc => h (by simp [hc])
    simp [substFirst, h1, ih h2]

/-- Sequentially applying single-character replacement rules whose
replacement strings contain no character that is itself a rule key is the
same as substituting each character by its first matching rule. -/
theorem applyTable_eq_charMap (table : List (Char × List Char)) (K : List Char)
    (hkeys : ∀ p ∈ table, p.1 ∈ K) (hvals : ∀ p ∈ table, ∀ c ∈ p.2, c ∉ K)
    (s : List Char) :
    applyTable table s = charMap (substFirst table) s := by
  induction table generalizing s with
  | nil => simp [applyTable, substFirst, charMap_id]
  | cons p rest ih =>
    obtain ⟨k, v⟩ := p
    have hrest : applyTable rest (replaceAll k v s) = charMap (substFirst rest) (replaceAll k v s) :=
      ih (fun q hq => hkeys q (by simp [hq])) (fun q hq => hvals q (by simp [hq])) _
    rw [applyTable, hrest, replaceAll_eq_charMap, charMap_comp]
    refine charMap_congr _ _ _ (fun c => ?_)
    by_cases hc : c = k
    · subst hc
      simp only [if_pos rfl, substFirst, if_pos rfl]
      refine charMap_fixed _ _ (fun c' hc' => ?_)
      refine substFirst_not_key _ _ (fun hmem => ?_)
      have hcK : c' ∉ K := hvals (c, v) (by simp) c' hc'
      rcases List.mem_map.mp hmem with ⟨q, hq, hq1⟩
      exact hcK (hq1 ▸ hkeys q (by simp [hq]))
    · simp [charMap, substFirst, hc]

set_option maxRecDepth 8000 in
/-- Boolean form of the no-cascade condition, evaluated once. -/
theorem tableSafe_eval :
    (translationTable.all (fun p => p.2.all
      (fun c => !(translationTable.any (fun q => q.1 == c))))) = true := by rfl

theorem table_values_not_keys :
    ∀ p ∈ translationTable, ∀ c ∈ p.2, c ∉ translationTable.map Prod.fst := by
  intro p hp c hc hmem
  have h1 := (List.all_eq_true.mp tableSafe_eval) p hp
  have h2 := (List.all_eq_true.mp h1) c hc
  rcases List.mem_map.mp hmem with ⟨q, hq, hq1⟩
  have hany : translationTable.any (fun q => q.1 == c) = true :=
    List.any_eq_true.mpr ⟨q, hq, by simp [hq1]⟩
  simp [hany] at h2

/-- C8: `_replace_characters` computes exactly the characterwise
application of its substitution table — each character that is a table key
becomes its listed replacement, every other character is unchanged.  The
sequential `str.replace` loop cannot cascade because no replacement string
contains a character that is itself a table key.  The second conjunct
evaluates the example from the spec. -/
theorem c8_transliteration_matches_table :
    (∀ s : String, replaceCharacters s = slugSpec s)
  ∧ replaceCharacters "Äü Team/Co." = "Au-Team-Co" := by
  have hmain : ∀ s : String, replaceCharacters s = slugSpec s := fun s =>
    congrArg String.mk (applyTable_eq_charMap translationTable
      (translationTable.map Prod.fst)
      (fun p hp => List.mem_map_of_mem Prod.fst hp)
      table_values_not_keys s.data)
  refine ⟨hmain, ?_⟩
  rw [hmain]
  rfl

/-!  ## Claims C1 and C2 — the cross-reference joins -/

theorem attrStrict_ok_attrD {v : MVal} {k : String} {x : MVal}
    (h : attrStrict v k = .ok x) : attrD v k = x := by
  cases v <;> simp [attrStrict] at h
  next attrs =>
    rename_i d
    cases hl : MFields.lookup k attrs <;> rw [hl] at h <;> simp at h
    simp [attrD, hl, h]

theorem idPred_ok {mPart : Except PyExc MVal} {fk : MVal} (hfk : mPart = .ok fk)
    {e : MVal} {b : Bool} (h : idPred mPart e = .ok b) :
    ∃ i, attrStrict e "id" = .ok i ∧ b = pyEqV i fk := by
  unfold idPred at h
  cases hi : attrStrict e "id" with
  | error err => rw [hi] at h; simp [Bind.bind, Except.bind] at h
  | ok i =>
    rw [hi, hfk] at h
    simp [Bind.bind, Except.bind, pure] at h
    exact ⟨i, rfl, h.symm⟩

theorem idPred_eval {mPart : Except PyExc MVal} {fk : MVal} (hfk : mPart = .ok fk)
    {e : MVal} {i : MVal} (hi : attrStrict e "id" = .ok i) :
    idPred mPart e = .ok (pyEqV i fk) := by
  unfold idPred
  rw [hi, hfk]
  rfl

theorem filterE_idPred_chr {mPart : Except PyExc MVal} {fk : MVal} (hfk : mPart = .ok fk) :
    ∀ {refs res : List MVal}, filterE (idPred mPart) refs = .ok res →
      res = refs.filter (fun e => pyEqV (attrD e "id") fk) := by
  intro refs
  induction refs with
  | nil =>
    intro res h
    unfold filterE at h
    cases h
    rfl
  | cons x xs ih =>
    intro res h
    unfold filterE at h
    rcases except_bind_ok.mp h with ⟨b, hb, h2⟩
    rcases except_bind_ok.mp h2 with ⟨rest, hrest, h3⟩
    rcases idPred_ok hfk hb with ⟨i, hi, hbv⟩
    simp [pure] at h3
    subst h3
    rw [List.filter_cons, attrStrict_ok_attrD hi, ← hbv, ih hrest]

theorem filterE_idPred_ok {mPart : Except PyExc MVal} {fk : MVal} (hfk : mPart = .ok fk) :
    ∀ {refs : List MVal}, (∀ e ∈ refs, ∃ i, attrStrict e "id" = .ok i) →
      filterE (idPred mPart) refs
        = .ok (refs.filter (fun e => pyEqV (attrD e "id") fk)) := by
  intro refs
  induction refs with
  | nil => intro _; simp [filterE]
  | cons x xs ih =>
    intro hall
    rcases hall x (by simp) with ⟨i, hi⟩
    have hxs := ih (fun e he => hall e (by simp [he]))
    unfold filterE
    rw [idPred_eval hfk hi, hxs]
    simp only [Bind.bind, Except.bind, pure, List.filter_cons, attrStrict_ok_attrD hi]

theorem resolveFirst_ok {owner : MVal} {fkField : String} {fk : MVal} {refs : List MVal}
    {c : MVal} (hfk : attrStrict owner fkField = .ok fk)
    (h : resolveFirst owner fkField refs = .ok c) :
    findFirstById refs fk = some c := by
  unfold resolveFirst at h
  rcases except_bind_ok.mp h with ⟨l, hl, hidx⟩
  have hl' : l = refs.filter (fun e => pyEqV (attrD e "id") fk) := filterE_idPred_chr hfk hl
  cases l with
  | nil => simp [pyIndex0] at hidx
  | cons y ys =>
    simp [pyIndex0] at hidx
    subst hidx
    unfold findFirstById
    rw [← head_filter_eq_find, ← hl']
    rfl

theorem resolveFirst_eval {owner : MVal} {fkField : String} {fk : MVal} {refs : List MVal}
    (hfk : attrStrict owner fkField = .ok fk)
    (hrefs : ∀ e ∈ refs, ∃ i, attrStrict e "id" = .ok i) :
    resolveFirst owner fkField refs
      = match findFirstById refs fk with
        | some c => .ok c
        | none => .error .indexError := by
  unfold resolveFirst
  rw [show filterE (idMatches owner fkField) refs = _ from filterE_idPred_ok hfk hrefs]
  unfold findFirstById
  rw [← head_filter_eq_find]
  cases hfil : refs.filter (fun e => pyEqV (attrD e "id") fk) with
  | nil => simp [pyIndex0, Bind.bind, Except.bind]
  | cons y ys => simp [pyIndex0, Bind.bind, Except.bind]

theorem mapTeams_resolves {raw : MVal} {kw : MFields} {countries : List MVal} {t : MVal}
    (hkw : asKwargs raw = .ok kw) (h : mapTeams raw countries = .ok t) :
    ∃ c, findFirstById countries ((kw.lookup "country_id").getD .pnone) = some c
      ∧ attrStrict t "country" = .ok c
      ∧ attrStrict t "country_id" = .error .attributeError := by
  unfold mapTeams at h
  rw [hkw] at h
  simp only [Bind.bind, Except.bind] at h
  rcases except_bind_ok.mp h with ⟨c, hc, h2⟩
  have hfk : attrStrict (newFromJsonDict teamDefaults kw) "country_id"
      = .ok ((kw.lookup "country_id").getD .pnone) := rfl
  have htd' : objDelAttr (newFromJsonDict teamDefaults kw) "country_id"
      = .ok (.mobj teamDefaults ((initAttrs teamDefaults kw).erase "country_id")) := rfl
  rw [htd'] at h2
  simp only [] at h2
  cases h2
  refine ⟨c, resolveFirst_ok hfk hc, ?_, ?_⟩
  · simp [objSetAttr, attrStrict, flookup_set_self]
  · simp [objSetAttr, attrStrict,
      flookup_set_ne _ _ (show "country_id" ≠ "country" by decide),
      flookup_erase_self]

theorem filterE_index0_find {mPart : Except PyExc MVal} {fk : MVal} {refs l : List MVal}
    {c : MVal} (hfk : mPart = .ok fk)
    (hl : filterE (idPred mPart) refs = .ok l) (hc : pyIndex0 l = .ok c) :
    findFirstById refs fk = some c := by
  have hl' : l = refs.filter (fun e => pyEqV (attrD e "id") fk) := filterE_idPred_chr hfk hl
  cases l with
  | nil => simp [pyIndex0] at hc
  | cons y ys =>
    simp [pyIndex0] at hc
    subst hc
    unfold findFirstById
    rw [← head_filter_eq_find, ← hl']
    rfl

theorem mapMatchSide_resolves {m : MVal} {side : String} {teams : List MVal} {m' : MVal}
    (h : mapMatchSide m side teams = .ok m') :
    ∃ hkvs ht, attrStrict m side = .ok (.mdict hkvs)
      ∧ (hkvs.lookup "team_id").isSome = true
      ∧ findFirstById teams ((hkvs.lookup "team_id").getD (.pint (-1))) = some ht
      ∧ m' = objSetAttr m side (.mdict ((hkvs.erase "team_id").set "team" ht)) := by
  unfold mapMatchSide at h
  simp only [Bind.bind, Except.bind] at h
  rcases except_bind_ok.mp h with ⟨l, hl, h2⟩
  rcases except_bind_ok.mp h2 with ⟨t, ht, h3⟩
  rcases except_bind_ok.mp h3 with ⟨sd, hsd, h4⟩
  rcases except_bind_ok.mp h4 with ⟨sd1, hsd1, h5⟩
  rcases except_bind_ok.mp h5 with ⟨sd2, hsd2, h6⟩
  cases sd with
  | mdict hkvs =>
    have hpair : (hkvs.lookup "team_id").isSome = true
        ∧ sd1 = .mdict (hkvs.erase "team_id") := by
      unfold dictDelItem at hsd1
      simp only [] at hsd1
      cases hlk0 : MFields.lookup "team_id" hkvs with
      | none => simp [hlk0] at hsd1
      | some v =>
        simp only [hlk0] at hsd1
        simp at hsd1
        exact ⟨by simp [hlk0], hsd1.symm⟩
    obtain ⟨hlk, hsd1x⟩ := hpair
    subst hsd1x
    have hsd2' : sd2 = .mdict ((hkvs.erase "team_id").set "team" t) := by
      unfold dictSetItem at hsd2
      cases hsd2
      rfl
    subst hsd2'
    have hmp : (do
        let home ← attrStrict m side
        dictGet home "team_id" (.pint (-1)) : Except PyExc MVal)
        = .ok ((hkvs.lookup "team_id").getD (.pint (-1))) := by
      rw [hsd]
      rfl
    refine ⟨hkvs, t, hsd, hlk, filterE_index0_find hmp hl ht, ?_⟩
    cases h6
    rfl
  | pnone => simp [dictDelItem] at hsd1
  | pbool b => simp [dictDelItem] at hsd1
  | pint n => simp [dictDelItem] at hsd1
  | pstr s => simp [dictDelItem] at hsd1
  | mlist xs => simp [dictDelItem] at hsd1
  | mobj d a => simp [dictDelItem] at hsd1

theorem mapCompetitions_resolves {raw : MVal} {kw : MFields} {countries : List MVal} {t : MVal}
    (hkw : asKwargs raw = .ok kw) (h : mapCompetitions raw countries = .ok t) :
    ∃ c, findFirstById countries ((kw.lookup "country_id").getD .pnone) = some c
      ∧ attrStrict t "country" = .ok c
      ∧ attrStrict t "country_id" = .error .attributeError := by
  unfold mapCompetitions at h
  rw [hkw] at h
  simp only [Bind.bind, Except.bind] at h
  rcases except_bind_ok.mp h with ⟨c, hc, h2⟩
  have hfk : attrStrict (newFromJsonDict competitionDefaults kw) "country_id"
      = .ok ((kw.lookup "country_id").getD .pnone) := rfl
  have htd' : objDelAttr (newFromJsonDict competitionDefaults kw) "country_id"
      = .ok (.mobj competitionDefaults ((initAttrs competitionDefaults kw).erase "country_id")) :=
    rfl
  rw [htd'] at h2
  simp only [] at h2
  cases h2
  refine ⟨c, resolveFirst_ok hfk hc, ?_, ?_⟩
  · simp [objSetAttr, attrStrict, flookup_set_self]
  · simp [objSetAttr, attrStrict,
      flookup_set_ne _ _ (show "country_id" ≠ "country" by decide),
      flookup_erase_self]

theorem mapLeagues_resolves {raw : MVal} {kw : MFields} {competitions : List MVal} {t : MVal}
    (hkw : asKwargs raw = .ok kw) (h : mapLeagues raw competitions = .ok t) :
    ∃ c, findFirstById competitions ((kw.lookup "competition_id").getD .pnone) = some c
      ∧ attrStrict t "competition" = .ok c
      ∧ attrStrict t "competition_id" = .error .attributeError := by
  unfold mapLeagues at h
  rw [hkw] at h
  simp only [Bind.bind, Except.bind] at h
  rcases except_bind_ok.mp h with ⟨c, hc, h2⟩
  have hfk : attrStrict (newFromJsonDict leagueDefaults kw) "competition_id"
      = .ok ((kw.lookup "competition_id").getD .pnone) := rfl
  have htd' : objDelAttr (newFromJsonDict leagueDefaults kw) "competition_id"
      = .ok (.mobj leagueDefaults ((initAttrs leagueDefaults kw).erase "competition_id")) := rfl
  rw [htd'] at h2
  simp only [] at h2
  cases h2
  refine ⟨c, resolveFirst_ok hfk hc, ?_, ?_⟩
  · simp [objSetAttr, attrStrict, flookup_set_self]
  · simp [objSetAttr, attrStrict,
      flookup_set_ne _ _ (show "competition_id" ≠ "competition" by decide),
      flookup_erase_self]

theorem getD_eq_mdict {o : Option MVal} {kvs : MFields} (h : o.getD .pnone = .mdict kvs) :
    o = some (.mdict kvs) := by
  cases o with
  | none => simp at h
  | some v => simpa using congrArg some h

theorem mapMatches_resolves {raw : MVal} {kw : MFields} {leagues teams : List MVal} {m : MVal}
    (hkw : asKwargs raw = .ok kw) (h : mapMatches raw leagues teams = .ok m) :
    (∃ lg, findFirstById leagues ((kw.lookup "league_id").getD .pnone) = some lg
      ∧ attrStrict m "league" = .ok lg
      ∧ attrStrict m "league_id" = .error .attributeError)
    ∧ (∃ hkvs ht, kw.lookup "home" = some (.mdict hkvs)
      ∧ findFirstById teams ((hkvs.lookup "team_id").getD (.pint (-1))) = some ht
      ∧ attrStrict m "home" = .ok (.mdict ((hkvs.erase "team_id").set "team" ht)))
    ∧ (∃ gkvs gt, kw.lookup "guest" = some (.mdict gkvs)
      ∧ findFirstById teams ((gkvs.lookup "team_id").getD (.pint (-1))) = some gt
      ∧ attrStrict m "guest" = .ok (.mdict ((gkvs.erase "team_id").set "team" gt))) := by
  unfold mapMatches at h
  rw [hkw] at h
  simp only [Bind.bind, Except.bind] at h
  rcases except_bind_ok.mp h with ⟨lg, hlg, h2⟩
  have hfk : attrStrict (newFromJsonDict matchDefaults kw) "league_id"
      = .ok ((kw.lookup "league_id").getD .pnone) := rfl
  have hdel : objDelAttr (newFromJsonDict matchDefaults kw) "league_id"
      = .ok (.mobj matchDefaults ((initAttrs matchDefaults kw).erase "league_id")) := rfl
  rw [hdel] at h2
  simp only [] at h2
  rcases except_bind_ok.mp h2 with ⟨m3, hm3, h3⟩
  rcases except_bind_ok.mp h3 with ⟨m4, hm4, h4⟩
  cases h4
  rcases mapMatchSide_resolves hm3 with ⟨hkvs, ht, hhome, hlkH, hfindH, hm3eq⟩
  subst hm3eq
  rcases mapMatchSide_resolves hm4 with ⟨gkvs, gt, hguest, hlkG, hfindG, hm4eq⟩
  subst hm4eq
  have hlookH : MFields.lookup "home"
      (((initAttrs matchDefaults kw).erase "league_id").set "league" lg)
      = some ((kw.lookup "home").getD .pnone) := by
    rw [flookup_set_ne _ _ (show "home" ≠ "league" by decide),
      flookup_erase_ne _ (show "home" ≠ "league_id" by decide)]
    rfl
  have hhome2 : attrStrict (objSetAttr
      (.mobj matchDefaults ((initAttrs matchDefaults kw).erase "league_id")) "league" lg)
      "home" = .ok ((kw.lookup "home").getD .pnone) := by
    simp [objSetAttr, attrStrict, hlookH]
  have hkwhome : kw.lookup "home" = some (.mdict hkvs) := by
    have hh := hhome2.symm.trans hhome
    simp at hh
    exact getD_eq_mdict hh
  have hlookG : MFields.lookup "guest"
      ((((initAttrs matchDefaults kw).erase "league_id").set "league" lg).set "home"
        (.mdict ((hkvs.erase "team_id").set "team" ht)))
      = some ((kw.lookup "guest").getD .pnone) := by
    rw [flookup_set_ne _ _ (show "guest" ≠ "home" by decide),
      flookup_set_ne _ _ (show "guest" ≠ "league" by decide),
      flookup_erase_ne _ (show "guest" ≠ "league_id" by decide)]
    rfl
  have hguest2 : attrStrict (objSetAttr (objSetAttr
      (.mobj matchDefaults ((initAttrs matchDefaults kw).erase "league_id")) "league" lg)
      "home" (.mdict ((hkvs.erase "team_id").set "team" ht)))
      "guest" = .ok ((kw.lookup "guest").getD .pnone) := by
    simp [objSetAttr, attrStrict, hlookG]
  have hkwguest : kw.lookup "guest" = some (.mdict gkvs) := by
    have hh := hguest2.symm.trans hguest
    simp at hh
    exact getD_eq_mdict hh
  refine ⟨⟨lg, resolveFirst_ok hfk hlg, ?_, ?_⟩,
    ⟨hkvs, ht, hkwhome, hfindH, ?_⟩, ⟨gkvs, gt, hkwguest, hfindG, ?_⟩⟩
  · simp [objSetAttr, attrStrict,
      flookup_set_ne _ _ (show "league" ≠ "guest" by decide),
      flookup_set_ne _ _ (show "league" ≠ "home" by decide),
      flookup_set_self]
  · simp [objSetAttr, attrStrict,
      flookup_set_ne _ _ (show "league_id" ≠ "guest" by decide),
      flookup_set_ne _ _ (show "league_id" ≠ "home" by decide),
      flookup_set_ne _ _ (show "league_id" ≠ "league" by decide),
      flookup_erase_self]
  · simp [objSetAttr, attrStrict,
      flookup_set_ne _ _ (show "home" ≠ "guest" by decide),
      flookup_set_self]
  · simp [objSetAttr, attrStrict, flookup_set_self]

theorem pyIndex0_of_head {l : List MVal} {c : MVal} (h : l.head? = some c) :
    pyIndex0 l = .ok c := by
  cases l with
  | nil => simp at h
  | cons y ys => simp at h; subst h; rfl

theorem filter_nil_of_find_none {α : Type} {p : α → Bool} {l : List α}
    (h : l.find? p = none) : l.filter p = [] := by
  have := List.find?_eq_none.mp h
  exact List.filter_eq_nil_iff.mpr this

theorem mapTeams_missing {raw : MVal} {kw : MFields} {countries : List MVal}
    (hkw : asKwargs raw = .ok kw)
    (hrefs : ∀ e ∈ countries, ∃ i, attrStrict e "id" = .ok i)
    (hnone : findFirstById countries ((kw.lookup "country_id").getD .pnone) = none) :
    mapTeams raw countries = .error .indexError := by
  unfold mapTeams
  rw [hkw]
  simp only [Bind.bind, Except.bind]
  rw [@resolveFirst_eval (newFromJsonDict teamDefaults kw) "country_id"
    ((kw.lookup "country_id").getD .pnone) countries rfl hrefs, hnone]

theorem mapCompetitions_missing {raw : MVal} {kw : MFields} {countries : List MVal}
    (hkw : asKwargs raw = .ok kw)
    (hrefs : ∀ e ∈ countries, ∃ i, attrStrict e "id" = .ok i)
    (hnone : findFirstById countries ((kw.lookup "country_id").getD .pnone) = none) :
    mapCompetitions raw countries = .error .indexError := by
  unfold mapCompetitions
  rw [hkw]
  simp only [Bind.bind, Except.bind]
  rw [@resolveFirst_eval (newFromJsonDict competitionDefaults kw) "country_id"
    ((kw.lookup "country_id").getD .pnone) countries rfl hrefs, hnone]

theorem mapLeagues_missing {raw : MVal} {kw : MFields} {competitions : List MVal}
    (hkw : asKwargs raw = .ok kw)
    (hrefs : ∀ e ∈ competitions, ∃ i, attrStrict e "id" = .ok i)
    (hnone : findFirstById competitions ((kw.lookup "competition_id").getD .pnone) = none) :
    mapLeagues raw competitions = .error .indexError := by
  unfold mapLeagues
  rw [hkw]
  simp only [Bind.bind, Except.bind]
  rw [@resolveFirst_eval (newFromJsonDict leagueDefaults kw) "competition_id"
    ((kw.lookup "competition_id").getD .pnone) competitions rfl hrefs, hnone]

theorem matchHomeAttr (kw : MFields) (lg : MVal) :
    attrStrict (objSetAttr
      (.mobj matchDefaults ((initAttrs matchDefaults kw).erase "league_id")) "league" lg)
      "home" = .ok ((kw.lookup "home").getD .pnone) := by
  have hlook : MFields.lookup "home"
      (((initAttrs matchDefaults kw).erase "league_id").set "league" lg)
      = some ((kw.lookup "home").getD .pnone) := by
    rw [flookup_set_ne _ _ (show "home" ≠ "league" by decide),
      flookup_erase_ne _ (show "home" ≠ "league_id" by decide)]
    rfl
  simp [objSetAttr, attrStrict, hlook]

theorem matchGuestAttr (kw : MFields) (lg sdh : MVal) :
    attrStrict (objSetAttr (objSetAttr
      (.mobj matchDefaults ((initAttrs matchDefaults kw).erase "league_id")) "league" lg)
      "home" sdh)
      "guest" = .ok ((kw.lookup "guest").getD .pnone) := by
  have hlook : MFields.lookup "guest"
      ((((initAttrs matchDefaults kw).erase "league_id").set "league" lg).set "home" sdh)
      = some ((kw.lookup "guest").getD .pnone) := by
    rw [flookup_set_ne _ _ (show "guest" ≠ "home" by decide),
      flookup_set_ne _ _ (show "guest" ≠ "league" by decide),
      flookup_erase_ne _ (show "guest" ≠ "league_id" by decide)]
    rfl
  simp [objSetAttr, attrStrict, hlook]

theorem mapMatchSide_missing {m : MVal} {side : String} {teams : List MVal} {hkvs : MFields}
    (hattr : attrStrict m side = .ok (.mdict hkvs))
    (hrefs : ∀ e ∈ teams, ∃ i, attrStrict e "id" = .ok i)
    (hnone : findFirstById teams ((hkvs.lookup "team_id").getD (.pint (-1))) = none) :
    mapMatchSide m side teams = .error .indexError := by
  unfold mapMatchSide
  have hmp : (do
      let home ← attrStrict m side
      dictGet home "team_id" (.pint (-1)) : Except PyExc MVal)
      = .ok ((hkvs.lookup "team_id").getD (.pint (-1))) := by
    rw [hattr]; rfl
  simp only [Bind.bind, Except.bind]
  rw [show filterE (sideMatches m side) teams = _ from filterE_idPred_ok hmp hrefs]
  rw [filter_nil_of_find_none hnone]
  rfl

theorem mapMatchSide_eval_ok {m : MVal} {side : String} {teams : List MVal} {hkvs : MFields}
    {tid ht : MVal}
    (hattr : attrStrict m side = .ok (.mdict hkvs))
    (hrefs : ∀ e ∈ teams, ∃ i, attrStrict e "id" = .ok i)
    (htid : hkvs.lookup "team_id" = some tid)
    (hfind : findFirstById teams tid = some ht) :
    mapMatchSide m side teams
      = .ok (objSetAttr m side (.mdict ((hkvs.erase "team_id").set "team" ht))) := by
  unfold mapMatchSide
  have hmp : (do
      let home ← attrStrict m side
      dictGet home "team_id" (.pint (-1)) : Except PyExc MVal)
      = .ok tid := by
    rw [hattr]
    simp [Bind.bind, Except.bind, dictGet, htid]
  simp only [Bind.bind, Except.bind]
  rw [show filterE (sideMatches m side) teams = _ from filterE_idPred_ok hmp hrefs]
  have hhead : (teams.filter (fun e => pyEqV (attrD e "id") tid)).head? = some ht := by
    rw [head_filter_eq_find]
    exact hfind
  simp [pyIndex0_of_head hhead, hattr, dictDelItem, dictSetItem, htid]

theorem mapMatches_league_missing {raw : MVal} {kw : MFields} {leagues teams : List MVal}
    (hkw : asKwargs raw = .ok kw)
    (hrefsL : ∀ e ∈ leagues, ∃ i, attrStrict e "id" = .ok i)
    (hnone : findFirstById leagues ((kw.lookup "league_id").getD .pnone) = none) :
    mapMatches raw leagues teams = .error .indexError := by
  unfold mapMatches
  rw [hkw]
  simp only [Bind.bind, Except.bind]
  rw [@resolveFirst_eval (newFromJsonDict matchDefaults kw) "league_id"
    ((kw.lookup "league_id").getD .pnone) leagues rfl hrefsL, hnone]

theorem mapMatches_home_missing {raw : MVal} {kw hkvs : MFields} {leagues teams : List MVal}
    {lg : MVal}
    (hkw : asKwargs raw = .ok kw)
    (hrefsL : ∀ e ∈ leagues, ∃ i, attrStrict e "id" = .ok i)
    (hrefsT : ∀ e ∈ teams, ∃ i, attrStrict e "id" = .ok i)
    (hfindL : findFirstById leagues ((kw.lookup "league_id").getD .pnone) = some lg)
    (hhome : kw.lookup "home" = some (.mdict hkvs))
    (hnoneH : findFirstById teams ((hkvs.lookup "team_id").getD (.pint (-1))) = none) :
    mapMatches raw leagues teams = .error .indexError := by
  unfold mapMatches
  rw [hkw]
  simp only [Bind.bind, Except.bind]
  rw [@resolveFirst_eval (newFromJsonDict matchDefaults kw) "league_id"
    ((kw.lookup "league_id").getD .pnone) leagues rfl hrefsL, hfindL]
  simp only []
  rw [show objDelAttr (newFromJsonDict matchDefaults kw) "league_id"
    = .ok (.mobj matchDefaults ((initAttrs matchDefaults kw).erase "league_id")) from rfl]
  simp only []
  have hattrH := matchHomeAttr kw lg
  rw [hhome] at hattrH
  simp only [Option.getD_some] at hattrH
  rw [mapMatchSide_missing hattrH hrefsT hnoneH]

theorem mapMatches_guest_missing {raw : MVal} {kw hkvs gkvs : MFields}
    {leagues teams : List MVal} {lg htid ht : MVal}
    (hkw : asKwargs raw = .ok kw)
    (hrefsL : ∀ e ∈ leagues, ∃ i, attrStrict e "id" = .ok i)
    (hrefsT : ∀ e ∈ teams, ∃ i, attrStrict e "id" = .ok i)
    (hfindL : findFirstById leagues ((kw.lookup "league_id").getD .pnone) = some lg)
    (hhome : kw.lookup "home" = some (.mdict hkvs))
    (htidH : hkvs.lookup "team_id" = some htid)
    (hfindH : findFirstById teams htid = some ht)
    (hguest : kw.lookup "guest" = some (.mdict gkvs))
    (hnoneG : findFirstById teams ((gkvs.lookup "team_id").getD (.pint (-1))) = none) :
    mapMatches raw leagues teams = .error .indexError := by
  unfold mapMatches
  rw [hkw]
  simp only [Bind.bind, Except.bind]
  rw [@resolveFirst_eval (newFromJsonDict matchDefaults kw) "league_id"
    ((kw.lookup "league_id").getD .pnone) leagues rfl hrefsL, hfindL]
  simp only []
  rw [show objDelAttr (newFromJsonDict matchDefaults kw) "league_id"
    = .ok (.mobj matchDefaults ((initAttrs matchDefaults kw).erase "league_id")) from rfl]
  simp only []
  have hattrH := matchHomeAttr kw lg
  rw [hhome] at hattrH
  simp only [Option.getD_some] at hattrH
  rw [mapMatchSide_eval_ok hattrH hrefsT htidH hfindH]
  simp only []
  have hattrG := matchGuestAttr kw lg (.mdict ((hkvs.erase "team_id").set "team" ht))
  rw [hguest] at hattrG
  simp only [Option.getD_some] at hattrG
  rw [mapMatchSide_missing hattrG hrefsT hnoneG]

/-- C1: each cross-reference join (Competition→Country, League→Competition,
Team→Country, Match→League and Match→home/guest Team) replaces the raw id
field with the resolved entity — the raw `*_id` attribute (or the
`team_id` dict key) is gone afterwards and the new attribute/key holds the
entity — and the resolved entity is the first entity of the co-delivered
list whose `id` equals the raw foreign key. -/
theorem c1_join_replaces_fk_with_first_match :
    (∀ (raw : MVal) (kw : MFields) (countries : List MVal) (t : MVal),
      asKwargs raw = .ok kw → mapTeams raw countries = .ok t →
      ∃ c, findFirstById countries ((kw.lookup "country_id").getD .pnone) = some c
        ∧ attrStrict t "country" = .ok c
        ∧ attrStrict t "country_id" = .error .attributeError)
  ∧ (∀ (raw : MVal) (kw : MFields) (countries : List MVal) (t : MVal),
      asKwargs raw = .ok kw → mapCompetitions raw countries = .ok t →
      ∃ c, findFirstById countries ((kw.lookup "country_id").getD .pnone) = some c
        ∧ attrStrict t "country" = .ok c
        ∧ attrStrict t "country_id" = .error .attributeError)
  ∧ (∀ (raw : MVal) (kw : MFields) (competitions : List MVal) (t : MVal),
      asKwargs raw = .ok kw → mapLeagues raw competitions = .ok t →
      ∃ c, findFirstById competitions ((kw.lookup "competition_id").getD .pnone) = some c
        ∧ attrStrict t "competition" = .ok c
        ∧ attrStrict t "competition_id" = .error .attributeError)
  ∧ (∀ (raw : MVal) (kw : MFields) (leagues teams : List MVal) (m : MVal),
      asKwargs raw = .ok kw → mapMatches raw leagues teams = .ok m →
      (∃ lg, findFirstById leagues ((kw.lookup "league_id").getD .pnone) = some lg
        ∧ attrStrict m "league" = .ok lg
        ∧ attrStrict m "league_id" = .error .attributeError)
      ∧ (∃ hkvs ht, kw.lookup "home" = some (.mdict hkvs)
        ∧ findFirstById teams ((hkvs.lookup "team_id").getD (.pint (-1))) = some ht
        ∧ attrStrict m "home" = .ok (.mdict ((hkvs.erase "team_id").set "team" ht)))
      ∧ (∃ gkvs gt, kw.lookup "guest" = some (.mdict gkvs)
        ∧ findFirstById teams ((gkvs.lookup "team_id").getD (.pint (-1))) = some gt
        ∧ attrStrict m "guest" = .ok (.mdict ((gkvs.erase "team_id").set "team" gt)))) :=
  ⟨fun _ _ _ _ hkw h => mapTeams_resolves hkw h,
   fun _ _ _ _ hkw h => mapCompetitions_resolves hkw h,
   fun _ _ _ _ hkw h => mapLeagues_resolves hkw h,
   fun _ _ _ _ _ hkw h => mapMatches_resolves hkw h⟩

/-- Witness for C1: the team's raw `country_id` 2 resolves to the first of
the two countries with id 2, the raw id attribute is gone and `country`
holds the resolved object. -/
theorem c1_witness :
    findFirstById wCountries (.pint 2) = some wCountry2
  ∧ attrStrict wTeamJoined "country" = .ok wCountry2
  ∧ attrStrict wTeamJoined "country_id" = .error .attributeError := by
  rcases c1_join_replaces_fk_with_first_match.1 wTeamRaw wTeamKw wCountries wTeamJoined rfl rfl
    with ⟨c, hfind, hattr, hdel⟩
  have hfk : ((wTeamKw.lookup "country_id").getD .pnone) = .pint 2 := rfl
  rw [hfk] at hfind
  have hc : c = wCountry2 := by
    have h2 : findFirstById wCountries (.pint 2) = some wCountry2 := rfl
    rw [h2] at hfind
    exact (Option.some.inj hfind).symm
  subst hc
  exact ⟨hfind, hattr, hdel⟩

/-- C2: a raw entity whose foreign key has no match in the co-delivered
list (whose entries, as constructed by the pipelines, all carry an `id`)
makes the join raise `IndexError` — the `[0]` on the empty filtered list —
for every one of the five joins; and a join can only succeed by actually
resolving the reference (so no null or placeholder is ever substituted and
no entity is silently dropped). -/
theorem c2_missing_reference_raises_index_error :
    (∀ (raw : MVal) (kw : MFields) (countries : List MVal),
      asKwargs raw = .ok kw →
      (∀ e ∈ countries, ∃ i, attrStrict e "id" = .ok i) →
      findFirstById countries ((kw.lookup "country_id").getD .pnone) = none →
      mapTeams raw countries = .error .indexError)
  ∧ (∀ (raw : MVal) (kw : MFields) (countries : List MVal),
      asKwargs raw = .ok kw →
      (∀ e ∈ countries, ∃ i, attrStrict e "id" = .ok i) →
      findFirstById countries ((kw.lookup "country_id").getD .pnone) = none →
      mapCompetitions raw countries = .error .indexError)
  ∧ (∀ (raw : MVal) (kw : MFields) (competitions : List MVal),
      asKwargs raw = .ok kw →
      (∀ e ∈ competitions, ∃ i, attrStrict e "id" = .ok i) →
      findFirstById competitions ((kw.lookup "competition_id").getD .pnone) = none →
      mapLeagues raw competitions = .error .indexError)
  ∧ (∀ (raw : MVal) (kw : MFields) (leagues teams : List MVal),
      asKwargs raw = .ok kw →
      (∀ e ∈ leagues, ∃ i, attrStrict e "id" = .ok i) →
      findFirstById leagues ((kw.lookup "league_id").getD .pnone) = none →
      mapMatches raw leagues teams = .error .indexError)
  ∧ (∀ (raw : MVal) (kw hkvs : MFields) (leagues teams : List MVal) (lg : MVal),
      asKwargs raw = .ok kw →
      (∀ e ∈ leagues, ∃ i, attrStrict e "id" = .ok i) →
      (∀ e ∈ teams, ∃ i, attrStrict e "id" = .ok i) →
      findFirstById leagues ((kw.lookup "league_id").getD .pnone) = some lg →
      kw.lookup "home" = some (.mdict hkvs) →
      findFirstById teams ((hkvs.lookup "team_id").getD (.pint (-1))) = none →
      mapMatches raw leagues teams = .error .indexError)
  ∧ (∀ (raw : MVal) (kw hkvs gkvs : MFields) (leagues teams : List MVal) (lg htid ht : MVal),
      asKwargs raw = .ok kw →
      (∀ e ∈ leagues, ∃ i, attrStrict e "id" = .ok i) →
      (∀ e ∈ teams, ∃ i, attrStrict e "id" = .ok i) →
      findFirstById leagues ((kw.lookup "league_id").getD .pnone) = some lg →
      kw.lookup "home" = some (.mdict hkvs) →
      hkvs.lookup "team_id" = some htid →
      findFirstById teams htid = some ht →
      kw.lookup "guest" = some (.mdict gkvs) →
      findFirstById teams ((gkvs.lookup "team_id").getD (.pint (-1))) = none →
      mapMatches raw leagues teams = .error .indexError)
  ∧ (∀ (raw : MVal) (countries : List MVal) (t : MVal),
      mapTeams raw countries = .ok t →
      ∃ kw c, asKwargs raw = .ok kw
        ∧ findFirstById countries ((kw.lookup "country_id").getD .pnone) = some c
        ∧ attrStrict t "country" = .ok c) := by
  refine ⟨fun _ _ _ hkw ha hb => mapTeams_missing hkw ha hb,
    fun _ _ _ hkw ha hb => mapCompetitions_missing hkw ha hb,
    fun _ _ _ hkw ha hb => mapLeagues_missing hkw ha hb,
    fun _ _ _ _ hkw ha hb => mapMatches_league_missing hkw ha hb,
    fun _ _ _ _ _ _ hkw ha hb hc hd he => mapMatches_home_missing hkw ha hb hc hd he,
    fun _ _ _ _ _ _ _ _ _ hkw ha hb hc hd he hf hg hh =>
      mapMatches_guest_missing hkw ha hb hc hd he hf hg hh,
    ?_⟩
  intro raw countries t h
  cases hk : asKwargs raw with
  | error e =>
    unfold mapTeams at h
    rw [hk] at h
    simp [Bind.bind, Except.bind] at h
  | ok kw =>
    rcases mapTeams_resolves hk h with ⟨c, hfind, hattr, _⟩
    exact ⟨kw, c, rfl, hfind, hattr⟩

/-- Witness for C2: a team whose `country_id` 99 has no match in the
country list makes `_map_teams` raise `IndexError`. -/
theorem c2_witness :
    mapTeams (.mdict wTeamKwMissing) wCountries = .error .indexError := by
  refine c2_missing_reference_raises_index_error.1 (.mdict wTeamKwMissing) wTeamKwMissing
    wCountries rfl ?_ rfl
  intro e he
  simp [wCountries] at he
  rcases he with rfl | rfl | rfl
  · exact ⟨.pint 1, rfl⟩
  · exact ⟨.pint 2, rfl⟩
  · exact ⟨.pint 2, rfl⟩

/-!  ## Claims C3 and C10 — the dictionary projection -/

theorem projAttr_benign {d : MVal} (h : benignDefault d = true) : projAttr d = none := by
  cases d with
  | pnone => simp [projAttr, truthy]
  | pbool b =>
    simp [benignDefault] at h
    simp [projAttr, truthy, h]
  | pint n => simp [benignDefault] at h
  | pstr s => simp [benignDefault] at h
  | mlist xs => simp [benignDefault] at h
  | mdict kvs => simp [benignDefault] at h
  | mobj d a => simp [benignDefault] at h

theorem projElem_noObj {v : MVal} (h : noObjV v = true) : projElem v = v := by
  cases v <;> simp [projElem] <;> simp [noObjV] at h

theorem projList_noObj {xs : MList} (h : noObjL xs = true) : projList xs = xs := by
  match xs with
  | .nil => simp [projList]
  | .cons v tl =>
    rw [noObjL, Bool.and_eq_true] at h
    rw [projList, projElem_noObj h.1, projList_noObj h.2]

theorem projAttr_noObj {v : MVal} (h : noObjV v = true) :
    projAttr v = if keepVal v then some v else none := by
  cases v with
  | mlist xs =>
    rw [noObjV] at h
    simp [projAttr, keepVal, projList_noObj h]
  | mobj d a => simp [noObjV] at h
  | pnone => simp [projAttr, keepVal, truthy]
  | pbool b => cases b <;> simp [projAttr, keepVal, truthy]
  | pint n => simp [projAttr, keepVal, truthy]
  | pstr s => simp [projAttr, keepVal, truthy]
  | mdict kvs => simp [projAttr, keepVal, truthy]

theorem noObjF_lookup {kvs : MFields} {k : String} {v : MVal}
    (hno : noObjF kvs = true) (h : kvs.lookup k = some v) : noObjV v = true := by
  match kvs with
  | .nil => simp [MFields.lookup] at h
  | .cons k0 v0 tl =>
    rw [noObjF, Bool.and_eq_true] at hno
    rw [MFields.lookup] at h
    split at h
    · cases h; exact hno.1
    · exact noObjF_lookup hno.2 h

theorem asDict_cons_irrelevant {ds : MFields} {k0 : String} {v0 : MVal} {attrs : MFields}
    (h : k0 ∉ ds.keys) : asDict ds (.cons k0 v0 attrs) = asDict ds attrs := by
  match ds with
  | .nil => simp [asDict]
  | .cons k d tl =>
    have hk : k ≠ k0 := by
      intro he
      exact h (by simp [MFields.keys, he])
    have h2 : k0 ∉ tl.keys := fun hm => h (by simp [MFields.keys, hm])
    rw [asDict, asDict]
    rw [flookup_cons_ne hk]
    cases hl : MFields.lookup k attrs with
    | none => simp only [hl]; exact asDict_cons_irrelevant h2
    | some a =>
      simp only [hl]
      cases hpa : projAttr a with
      | none => simp only [hpa]; exact asDict_cons_irrelevant h2
      | some pv => simp only [hpa]; rw [asDict_cons_irrelevant h2]

theorem asDict_nil_eq (attrs : MFields) : asDict .nil attrs = .nil := by
  simp [asDict]

theorem asDict_cons_skip_missing {k : String} {d : MVal} {tl attrs : MFields}
    (hl : MFields.lookup k attrs = none) :
    asDict (.cons k d tl) attrs = asDict tl attrs := by
  rw [asDict]
  cases hx : MFields.lookup k attrs with
  | none => rfl
  | some a => simp [hx] at hl

theorem asDict_cons_skip_attr {k : String} {d a : MVal} {tl attrs : MFields}
    (hl : MFields.lookup k attrs = some a) (hp : projAttr a = none) :
    asDict (.cons k d tl) attrs = asDict tl attrs := by
  rw [asDict]
  cases hx : MFields.lookup k attrs with
  | none => simp [hx] at hl
  | some b =>
    rw [hx] at hl
    cases hl
    simp only [hp]

theorem asDict_cons_emit {k : String} {d a pv : MVal} {tl attrs : MFields}
    (hl : MFields.lookup k attrs = some a) (hp : projAttr a = some pv) :
    asDict (.cons k d tl) attrs = .cons k pv (asDict tl attrs) := by
  rw [asDict]
  cases hx : MFields.lookup k attrs with
  | none => simp [hx] at hl
  | some b =>
    rw [hx] at hl
    cases hl
    simp only [hp]

theorem asDict_init {defaults kvs : MFields}
    (hnodup : defaults.keys.Nodup) (hjson : noObjF kvs = true)
    (hbenign : benignF defaults = true) :
    asDict defaults (initAttrs defaults kvs) = filterEmit defaults kvs := by
  match defaults with
  | .nil => simp [asDict, initAttrs, filterEmit]
  | .cons k d tl =>
    have hnd : k ∉ tl.keys ∧ tl.keys.Nodup := by
      rw [MFields.keys] at hnodup
      exact ⟨(List.nodup_cons.mp hnodup).1, (List.nodup_cons.mp hnodup).2⟩
    have hb : benignDefault d = true ∧ benignF tl = true := by
      rw [benignF, Bool.and_eq_true] at hbenign
      exact hbenign
    have ih : asDict tl (initAttrs tl kvs) = filterEmit tl kvs :=
      asDict_init hnd.2 hjson hb.2
    have hlkInit : MFields.lookup k (initAttrs (.cons k d tl) kvs)
        = some ((kvs.lookup k).getD d) := by
      rw [initAttrs]
      simp [MFields.lookup]
    cases hlk : MFields.lookup k kvs with
    | none =>
      rw [hlk, Option.getD_none] at hlkInit
      rw [asDict_cons_skip_attr hlkInit (projAttr_benign hb.1)]
      rw [initAttrs, asDict_cons_irrelevant hnd.1, ih]
      simp [filterEmit, hlk]
    | some v =>
      rw [hlk, Option.getD_some] at hlkInit
      have hproj := projAttr_noObj (noObjF_lookup hjson hlk)
      cases hkeep : keepVal v with
      | false =>
        rw [hkeep] at hproj
        simp only [Bool.false_eq_true, if_false] at hproj
        rw [asDict_cons_skip_attr hlkInit hproj]
        rw [initAttrs, asDict_cons_irrelevant hnd.1, ih]
        simp [filterEmit, hlk, hkeep]
      | true =>
        rw [hkeep] at hproj
        simp only [if_pos] at hproj
        rw [asDict_cons_emit hlkInit hproj]
        rw [initAttrs, asDict_cons_irrelevant hnd.1, ih]
        simp [filterEmit, hlk, hkeep]

theorem filterEmit_keys {ds kvs : MFields} {k : String}
    (h : k ∈ (filterEmit ds kvs).keys) : k ∈ ds.keys := by
  match ds with
  | .nil => simp [filterEmit, MFields.keys] at h
  | .cons k0 d tl =>
    rw [filterEmit] at h
    rw [MFields.keys]
    cases hlk : MFields.lookup k0 kvs with
    | none =>
      rw [hlk] at h
      exact List.mem_cons_of_mem _ (filterEmit_keys h)
    | some v =>
      rw [hlk] at h
      cases hkeep : keepVal v with
      | false =>
        simp only [hkeep, Bool.false_eq_true, if_false] at h
        exact List.mem_cons_of_mem _ (filterEmit_keys h)
      | true =>
        simp only [hkeep, if_pos] at h
        rw [MFields.keys] at h
        rcases List.mem_cons.mp h with h1 | h2
        · exact List.mem_cons.mpr (Or.inl h1)
        · exact List.mem_cons_of_mem _ (filterEmit_keys h2)

theorem filterEmit_lookup_none {ds kvs : MFields} {k : String} (h : k ∉ ds.keys) :
    (filterEmit ds kvs).lookup k = none :=
  flookup_none_of_not_mem_keys (fun hm => h (filterEmit_keys hm))

theorem filterEmit_cons_irrelevant {ds : MFields} {k0 : String} {v0 : MVal} {kvs : MFields}
    (h : k0 ∉ ds.keys) : filterEmit ds (.cons k0 v0 kvs) = filterEmit ds kvs := by
  match ds with
  | .nil => rfl
  | .cons k d tl =>
    have hk : k ≠ k0 := fun he => h (by simp [MFields.keys, he])
    have h2 : k0 ∉ tl.keys := fun hm => h (by simp [MFields.keys, hm])
    rw [filterEmit, filterEmit, flookup_cons_ne hk]
    cases hlk : MFields.lookup k kvs with
    | none => exact filterEmit_cons_irrelevant h2
    | some v =>
      cases hkeep : keepVal v with
      | false =>
        simp only [hkeep, Bool.false_eq_true, if_false]
        exact filterEmit_cons_irrelevant h2
      | true =>
        simp only [hkeep, if_pos]
        rw [filterEmit_cons_irrelevant h2]

theorem filterEmit_idem {ds kvs : MFields} (hnodup : ds.keys.Nodup) :
    filterEmit ds (filterEmit ds kvs) = filterEmit ds kvs := by
  match ds with
  | .nil => rfl
  | .cons k d tl =>
    have hnd : k ∉ tl.keys ∧ tl.keys.Nodup := by
      rw [MFields.keys] at hnodup
      exact ⟨(List.nodup_cons.mp hnodup).1, (List.nodup_cons.mp hnodup).2⟩
    cases hlk : MFields.lookup k kvs with
    | none =>
      have hE : filterEmit (.cons k d tl) kvs = filterEmit tl kvs := by
        rw [filterEmit, hlk]
      rw [hE, filterEmit, filterEmit_lookup_none hnd.1]
      exact filterEmit_idem hnd.2
    | some v =>
      cases hkeep : keepVal v with
      | false =>
        have hE : filterEmit (.cons k d tl) kvs = filterEmit tl kvs := by
          rw [filterEmit, hlk]
          simp [hkeep]
        rw [hE, filterEmit, filterEmit_lookup_none hnd.1]
        exact filterEmit_idem hnd.2
      | true =>
        have hE : filterEmit (.cons k d tl) kvs = .cons k v (filterEmit tl kvs) := by
          rw [filterEmit, hlk]
          simp [hkeep]
        rw [hE, filterEmit]
        rw [show MFields.lookup k (.cons k v (filterEmit tl kvs)) = some v from by
          simp [MFields.lookup]]
        simp only [hkeep, if_pos]
        rw [filterEmit_cons_irrelevant hnd.1, filterEmit_idem hnd.2]

theorem filterEmit_lookup_mem {ds kvs : MFields} {k : String}
    (hnodup : ds.keys.Nodup) (hmem : k ∈ ds.keys) :
    (filterEmit ds kvs).lookup k
      = match kvs.lookup k with
        | some v => if keepVal v then some v else none
        | none => none := by
  match ds with
  | .nil => simp [MFields.keys] at hmem
  | .cons k0 d tl =>
    have hnd : k0 ∉ tl.keys ∧ tl.keys.Nodup := by
      rw [MFields.keys] at hnodup
      exact ⟨(List.nodup_cons.mp hnodup).1, (List.nodup_cons.mp hnodup).2⟩
    by_cases hk : k = k0
    · subst hk
      cases hlk : MFields.lookup k kvs with
      | none =>
        have hE : filterEmit (.cons k d tl) kvs = filterEmit tl kvs := by
          rw [filterEmit, hlk]
        rw [hE, filterEmit_lookup_none hnd.1]
      | some v =>
        cases hkeep : keepVal v with
        | false =>
          have hE : filterEmit (.cons k d tl) kvs = filterEmit tl kvs := by
            rw [filterEmit, hlk]
            simp [hkeep]
          rw [hE, filterEmit_lookup_none hnd.1]
          simp [hkeep]
        | true =>
          have hE : filterEmit (.cons k d tl) kvs = .cons k v (filterEmit tl kvs) := by
            rw [filterEmit, hlk]
            simp [hkeep]
          rw [hE]
          rw [show MFields.lookup k (.cons k v (filterEmit tl kvs)) = some v from by
            simp [MFields.lookup]]
          simp [hkeep]
    · have hmem2 : k ∈ tl.keys := by
        rw [MFields.keys] at hmem
        rcases List.mem_cons.mp hmem with h1 | h2
        · exact absurd h1 hk
        · exact h2
      have ih := @filterEmit_lookup_mem tl kvs k hnd.2 hmem2
      cases hlk : MFields.lookup k0 kvs with
      | none =>
        have hE : filterEmit (.cons k0 d tl) kvs = filterEmit tl kvs := by
          rw [filterEmit, hlk]
        rw [hE, ih]
      | some v =>
        cases hkeep : keepVal v with
        | false =>
          have hE : filterEmit (.cons k0 d tl) kvs = filterEmit tl kvs := by
            rw [filterEmit, hlk]
            simp [hkeep]
          rw [hE, ih]
        | true =>
          have hE : filterEmit (.cons k0 d tl) kvs = .cons k0 v (filterEmit tl kvs) := by
            rw [filterEmit, hlk]
            simp [hkeep]
          rw [hE, flookup_cons_ne hk, ih]

theorem filterEmit_noObj {ds kvs : MFields} (h : noObjF kvs = true) :
    noObjF (filterEmit ds kvs) = true := by
  match ds with
  | .nil => rfl
  | .cons k d tl =>
    cases hlk : MFields.lookup k kvs with
    | none =>
      rw [filterEmit, hlk]
      exact filterEmit_noObj h
    | some v =>
      cases hkeep : keepVal v with
      | false =>
        rw [filterEmit, hlk]
        simp only [hkeep, Bool.false_eq_true, if_false]
        exact filterEmit_noObj h
      | true =>
        rw [filterEmit, hlk]
        simp only [hkeep, if_pos]
        rw [noObjF, Bool.and_eq_true]
        exact ⟨noObjF_lookup h hlk, filterEmit_noObj h⟩

/-- C3 (amended): for every shipped record type, building a record from a
JSON dictionary whose keys are among the type's fields and projecting it
with `as_dict` yields exactly the supplied fields that are truthy or
list-valued, in `param_defaults` order and with unchanged values — falsy
supplied values (`0`, `''`, `False`, `None`, empty dicts) are omitted even
though they differ from the default — and reconstructing a record from
that projection yields one structurally equal (`__eq__`, i.e. equal
`as_dict` projections) to the original. -/
theorem c3_projection_keeps_truthy_fields_and_roundtrips (defaults kvs : MFields)
    (hty : defaults = statusDefaults ∨ defaults = rangeDefaults ∨ defaults = countryDefaults
      ∨ defaults = competitionDefaults ∨ defaults = leagueDefaults ∨ defaults = teamDefaults
      ∨ defaults = matchDefaults)
    (hjson : noObjF kvs = true)
    (hsub : ∀ k ∈ kvs.keys, k ∈ defaults.keys) :
    asDict defaults (initAttrs defaults kvs) = filterEmit defaults kvs
  ∧ (∀ k, (asDict defaults (initAttrs defaults kvs)).lookup k
      = match kvs.lookup k with
        | some v => if keepVal v then some v else none
        | none => none)
  ∧ eqModel (newFromJsonDict defaults (asDict defaults (initAttrs defaults kvs)))
      (newFromJsonDict defaults kvs) = true := by
  have hnodup : defaults.keys.Nodup := by
    rcases hty with rfl | rfl | rfl | rfl | rfl | rfl | rfl <;> decide
  have hbenign : benignF defaults = true := by
    rcases hty with rfl | rfl | rfl | rfl | rfl | rfl | rfl <;> decide
  have h1 := asDict_init hnodup hjson hbenign
  refine ⟨h1, ?_, ?_⟩
  · intro k
    rw [h1]
    by_cases hmem : k ∈ defaults.keys
    · exact filterEmit_lookup_mem hnodup hmem
    · rw [filterEmit_lookup_none hmem]
      have hkv : kvs.lookup k = none :=
        flookup_none_of_not_mem_keys (fun hk => hmem (hsub k hk))
      rw [hkv]
  · rw [show eqModel (newFromJsonDict defaults (asDict defaults (initAttrs defaults kvs)))
        (newFromJsonDict defaults kvs)
      = (asDict defaults (initAttrs defaults (asDict defaults (initAttrs defaults kvs)))
        == asDict defaults (initAttrs defaults kvs)) from rfl]
    rw [h1, asDict_init hnodup (filterEmit_noObj hjson) hbenign, filterEmit_idem hnodup]
    exact beq_self_eq_true _

/-- Counterexample for C3 as stated: supplying `id = 0` (a non-default
value, since the default is `None`) yields a projection that does not
contain `id` at all — `as_dict` drops falsy values. -/
theorem c3_counterexample_nondefault_falsy_dropped :
    MFields.lookup "id" (asDict countryDefaults
      (initAttrs countryDefaults (MFields.cons "id" (.pint 0) .nil))) = none
  ∧ MFields.lookup "id" (MFields.cons "id" (.pint 0) .nil) = some (.pint 0)
  ∧ MVal.pint 0 ≠ MVal.pnone := by
  refine ⟨?_, rfl, by decide⟩
  rw [asDict_init (by decide) (by decide) (by decide)]
  decide

/-- Witness for C3 on a concrete `Country` input. -/
theorem c3_witness :
    asDict countryDefaults (initAttrs countryDefaults c3kvs) = filterEmit countryDefaults c3kvs
  ∧ MFields.lookup "name" (asDict countryDefaults (initAttrs countryDefaults c3kvs))
      = some (.pstr "Slovakia")
  ∧ eqModel (newFromJsonDict countryDefaults
        (asDict countryDefaults (initAttrs countryDefaults c3kvs)))
      (newFromJsonDict countryDefaults c3kvs) = true := by
  have h := c3_projection_keeps_truthy_fields_and_roundtrips countryDefaults c3kvs
    (Or.inr (Or.inr (Or.inl rfl))) (by decide) (by decide)
  refine ⟨h.1, ?_, h.2.2⟩
  rw [h.2.1 "name"]
  decide

theorem asDict_set_irrelevant {ds : MFields} {k : String} {v : MVal} {attrs : MFields}
    (h : k ∉ ds.keys) : asDict ds (attrs.set k v) = asDict ds attrs := by
  match ds with
  | .nil => simp [asDict]
  | .cons k1 d tl =>
    have hk : k1 ≠ k := fun he => h (by simp [MFields.keys, he])
    have h2 : k ∉ tl.keys := fun hm => h (by simp [MFields.keys, hm])
    cases hl : MFields.lookup k1 attrs with
    | none =>
      rw [asDict_cons_skip_missing (show MFields.lookup k1 (attrs.set k v) = none from by
          rw [flookup_set_ne attrs v hk]; exact hl),
        asDict_cons_skip_missing hl]
      exact asDict_set_irrelevant h2
    | some a =>
      have hlset : MFields.lookup k1 (attrs.set k v) = some a := by
        rw [flookup_set_ne attrs v hk]; exact hl
      cases hpa : projAttr a with
      | none =>
        rw [asDict_cons_skip_attr hlset hpa, asDict_cons_skip_attr hl hpa]
        exact asDict_set_irrelevant h2
      | some pv =>
        rw [asDict_cons_emit hlset hpa, asDict_cons_emit hl hpa, asDict_set_irrelevant h2]

/-- C10 (amended): an attribute stored under a key outside the record's
`param_defaults` table — as the join does for `country`, `competition` and
`league` — never appears in `as_dict` output and never affects equality.
The part of the original claim about the resolved team objects is false:
they are installed inside the `home`/`guest` dicts, whose keys are in the
defaults table, so they do appear in `as_dict` output and do affect
equality (see the counterexample). -/
theorem c10_extra_attribute_invisible_in_projection (defaults attrs : MFields)
    (k : String) (v : MVal) (h : k ∉ defaults.keys) :
    asDict defaults (attrs.set k v) = asDict defaults attrs
  ∧ eqModel (.mobj defaults (attrs.set k v)) (.mobj defaults attrs) = true := by
  have h1 := @asDict_set_irrelevant defaults k v attrs h
  refine ⟨h1, ?_⟩
  rw [show eqModel (.mobj defaults (attrs.set k v)) (.mobj defaults attrs)
    = (asDict defaults (attrs.set k v) == asDict defaults attrs) from rfl]
  rw [h1]
  exact beq_self_eq_true _

set_option maxHeartbeats 1000000 in
theorem asDict_xAttrs (team : MVal) : asDict matchDefaults (xAttrs team) = MFields.ofList
    [("id", .pint 1), ("home", .mdict (.cons "team" team .nil)),
     ("guest", .mdict (.cons "team" team .nil))] := by
  simp only [matchDefaults, MFields.ofList]
  simp [asDict_cons_skip_missing, asDict_cons_skip_attr, asDict_cons_emit, asDict_nil_eq,
    projAttr, projList, projElem, truthy, MFields.lookup, MFields.ofList,
    xAttrs, xLeague, newFromJsonDict, initAttrs, leagueDefaults]

/-- Counterexample for C10 as stated: the resolved team object installed by
the join inside the `home` dict does appear in `as_dict` output (the
`home` key is in the defaults table and its dict value is emitted as-is,
model object included), and two joined matches that differ only in that
resolved team object are unequal. -/
theorem c10_counterexample_team_object_appears :
    MFields.lookup "home" (objAsDict xJoinedA)
      = some (.mdict (.cons "team" xTeamA .nil))
  ∧ eqModel xJoinedA xJoinedB = false := by
  have hA : xJoinedA = .mobj matchDefaults (xAttrs xTeamA) := by decide
  have hB : xJoinedB = .mobj matchDefaults (xAttrs xTeamB) := by decide
  constructor
  · rw [hA]
    rw [show objAsDict (.mobj matchDefaults (xAttrs xTeamA))
      = asDict matchDefaults (xAttrs xTeamA) from rfl]
    rw [asDict_xAttrs]
    decide
  · rw [hA, hB]
    rw [show eqModel (.mobj matchDefaults (xAttrs xTeamA)) (.mobj matchDefaults (xAttrs xTeamB))
      = (asDict matchDefaults (xAttrs xTeamA) == asDict matchDefaults (xAttrs xTeamB)) from rfl]
    rw [asDict_xAttrs, asDict_xAttrs]
    decide

/-- Witness for C10 at the join's own `setattr`: installing the resolved
country under the extra key `country` leaves the projection unchanged. -/
theorem c10_witness :
    asDict competitionDefaults
      ((initAttrs competitionDefaults (.cons "id" (.pint 5) .nil)).set "country" wCountry1)
      = asDict competitionDefaults (initAttrs competitionDefaults (.cons "id" (.pint 5) .nil))
  ∧ eqModel
      (.mobj competitionDefaults
        ((initAttrs competitionDefaults (.cons "id" (.pint 5) .nil)).set "country" wCountry1))
      (.mobj competitionDefaults (initAttrs competitionDefaults (.cons "id" (.pint 5) .nil)))
      = true :=
  c10_extra_attribute_invisible_in_projection competitionDefaults
    (initAttrs competitionDefaults (.cons "id" (.pint 5) .nil)) "country" wCountry1 (by decide)

/-!  ## Claim C5 — `get_daily_matches` / `get_team_matches` return `Matches` -/

theorem mapM_ok_pointwise {f : MVal → Except PyExc MVal} :
    ∀ {xs ys : List MVal}, xs.mapM f = .ok ys →
      ys.length = xs.length
      ∧ ∀ i (h1 : i < xs.length) (h2 : i < ys.length),
          f (xs.get ⟨i, h1⟩) = .ok (ys.get ⟨i, h2⟩) := by
  intro xs
  induction xs with
  | nil =>
    intro ys h
    rw [List.mapM_nil] at h
    cases h
    exact ⟨rfl, fun i h1 h2 => absurd h1 (by simp)⟩
  | cons x xs ih =>
    intro ys h
    rw [List.mapM_cons] at h
    rcases except_bind_ok.mp h with ⟨y, hy, h2⟩
    rcases except_bind_ok.mp h2 with ⟨ys2, hys2, h3⟩
    cases h3
    obtain ⟨hlen, hpt⟩ := ih hys2
    refine ⟨by simp [hlen], ?_⟩
    intro i h1 h2
    cases i with
    | zero => exact hy
    | succ n =>
      exact hpt n (by simpa using h1) (by simpa using h2)

theorem matchesPayload_chr {data : MVal} {M : Matches} (h : matchesPayload data = .ok M) :
    ∃ cl countries pl competitions ll leagues tl teams ml,
      envList data "countries" = .ok cl
      ∧ cl.mapM countryFromJson = .ok countries
      ∧ envList data "competitions" = .ok pl
      ∧ pl.mapM (fun x => mapCompetitions x countries) = .ok competitions
      ∧ envList data "leagues" = .ok ll
      ∧ ll.mapM (fun x => mapLeagues x competitions) = .ok leagues
      ∧ envList data "teams" = .ok tl
      ∧ tl.mapM (fun x => mapTeams x countries) = .ok teams
      ∧ envList data "matches" = .ok ml
      ∧ ml.mapM (fun x => mapMatches x leagues teams) = .ok M.items
      ∧ M.items.length = ml.length
      ∧ ∀ i (h1 : i < ml.length) (h2 : i < M.items.length),
          mapMatches (ml.get ⟨i, h1⟩) leagues teams = .ok (M.items.get ⟨i, h2⟩) := by
  unfold matchesPayload at h
  rcases except_bind_ok.mp h with ⟨cl, hcl, h⟩
  rcases except_bind_ok.mp h with ⟨countries, hcountries, h⟩
  rcases except_bind_ok.mp h with ⟨pl, hpl, h⟩
  rcases except_bind_ok.mp h with ⟨competitions, hcompetitions, h⟩
  rcases except_bind_ok.mp h with ⟨ll, hll, h⟩
  rcases except_bind_ok.mp h with ⟨leagues, hleagues, h⟩
  rcases except_bind_ok.mp h with ⟨tl, htl, h⟩
  rcases except_bind_ok.mp h with ⟨teams, hteams, h⟩
  rcases except_bind_ok.mp h with ⟨ml, hml, h⟩
  rcases except_bind_ok.mp h with ⟨ms, hms, h⟩
  cases h
  obtain ⟨hlen, hpt⟩ := mapM_ok_pointwise hms
  exact ⟨cl, countries, pl, competitions, ll, leagues, tl, teams, ml,
    hcl, hcountries, hpl, hcompetitions, hll, hleagues, htl, hteams, hml, hms,
    hlen, hpt⟩

theorem getDailyMatchesOp_ok {st : ApiState} {fetch : HttpRequest → HttpResponse}
    {loads : String → Except PyExc MVal} {M : Matches}
    (h : (getDailyMatchesOp st fetch loads).2 = .ok M) :
    ∃ data, matchesPayload data = .ok M := by
  unfold getDailyMatchesOp runJsonGet at h
  simp [requestUrl, buildUrl, truthy] at h
  rcases except_bind_ok.mp h with ⟨data, _, hp⟩
  exact ⟨data, hp⟩

theorem getTeamMatchesOp_ok {st : ApiState} {team : MVal}
    {fetch : HttpRequest → HttpResponse} {loads : String → Except PyExc MVal} {M : Matches}
    (h : (getTeamMatchesOp st team fetch loads).2 = .ok M) :
    ∃ data, matchesPayload data = .ok M := by
  unfold getTeamMatchesOp at h
  cases hid : attrStrict team "id" with
  | error e => rw [hid] at h; simp at h
  | ok tid =>
    rw [hid] at h
    unfold runJsonGet at h
    simp [requestUrl, buildUrl, truthy] at h
    rcases except_bind_ok.mp h with ⟨data, _, hp⟩
    exact ⟨data, hp⟩

/-- **C5.** `get_daily_matches()` and `get_team_matches(team)` each return a
`Matches` value — an ordered container of the resolved `Match` records, in
response order: every successful call returns exactly the result of the
matches pipeline on the decoded body, and every successful pipeline result
is a `Matches` whose items list has one entry per raw match of the
envelope's `matches` list, the `i`-th item being the resolved form
(`_map_matches`) of the `i`-th raw match.  The last two conjuncts run the
full `get_daily_matches` operation on a concrete envelope. -/
theorem c5_matches_aggregate_of_resolved_matches :
    (∀ (st : ApiState) (fetch : HttpRequest → HttpResponse)
        (loads : String → Except PyExc MVal) (M : Matches),
        (getDailyMatchesOp st fetch loads).2 = .ok M →
        ∃ data, matchesPayload data = .ok M)
  ∧ (∀ (st : ApiState) (team : MVal) (fetch : HttpRequest → HttpResponse)
        (loads : String → Except PyExc MVal) (M : Matches),
        (getTeamMatchesOp st team fetch loads).2 = .ok M →
        ∃ data, matchesPayload data = .ok M)
  ∧ (∀ (data : MVal) (M : Matches), matchesPayload data = .ok M →
        ∃ leagues teams ml,
          envList data "matches" = .ok ml
          ∧ M.items.length = ml.length
          ∧ ∀ i (h1 : i < ml.length) (h2 : i < M.items.length),
              mapMatches (ml.get ⟨i, h1⟩) leagues teams = .ok (M.items.get ⟨i, h2⟩))
  ∧ (getDailyMatchesOp sampleState (fun _ => ⟨200, "OK", ""⟩)
        (fun _ => .ok sampleMatchesData)).2 = .ok sampleMatchesResult
  ∧ sampleMatchesResult.items.length = 1 := by
  refine ⟨?_, ?_, ?_, ?_, ?_⟩
  · intro st fetch loads M h
    exact getDailyMatchesOp_ok h
  · intro st team fetch loads M h
    exact getTeamMatchesOp_ok h
  · intro data M h
    obtain ⟨cl, countries, pl, competitions, ll, leagues, tl, teams, ml,
      _, _, _, _, _, _, _, _, hml, _, hlen, hpt⟩ := matchesPayload_chr h
    exact ⟨leagues, teams, ml, hml, hlen, hpt⟩
  · rfl
  · rfl
